import Mathlib

/-!
A shallow embedding of the myRTOS task/scheduler/synchronization core
(`src/scheduler/scheduler.c`, `src/mutex/mutex.c`, `src/semaphore/semaphore.c`,
`src/messageQueue/messageQueue.c`, `src/conditionVariable/conditionVariable.c`,
`src/timer/timer.c`, with the data model of `src/task/task.h`).

Tasks are identified by natural-number ids; the intrusive linked lists of the C
code (ready queue, blocked-timeout list, wait queues, timer list) become Lean
lists of ids.  The kernel's global mutable state becomes an explicit `Kernel`
record holding the task pool together with one instance of each synchronization
primitive; every C function becomes a Lean function from `Kernel` to `Kernel`
(paired with its return code where the C function returns one).  A blocking
call cannot run "the rest of the system" inside a sequential function, so the
period during which the caller is blocked is abstracted by an environment
parameter `env : Kernel → Kernel` applied to the state in which the caller
blocked; the code after the wakeup is translated as-is on `env`'s result.

The task-queue module (`taskQueue.c`) and the task-operations module (`task.c`)
of the repository are not available; they are modelled from the spec (sections
4.1 and 4.2), as marked on each such definition.
-/

/-- Task identifier (stands for a `taskHandleType *`). -/
abbrev TaskId := Nat

/-- `taskStatusType` of `task.h`. -/
inductive TaskStatus where
  | TASK_STATUS_READY
  | TASK_STATUS_RUNNING
  | TASK_STATUS_BLOCKED
  | TASK_STATUS_SUSPENDED
deriving DecidableEq, Repr

/-- `blockedReasonType` of `task.h`. -/
inductive BlockedReason where
  | BLOCK_REASON_NONE
  | SLEEP
  | WAIT_FOR_SEMAPHORE
  | WAIT_FOR_MUTEX
  | WAIT_FOR_MSG_QUEUE_DATA
  | WAIT_FOR_MSG_QUEUE_SPACE
  | WAIT_FOR_COND_VAR
  | WAIT_FOR_TIMER_TIMEOUT
deriving DecidableEq, Repr

/-- `wakeupReasonType` of `task.h`. -/
inductive WakeupReason where
  | WAKEUP_REASON_NONE
  | WAIT_TIMEOUT
  | SLEEP_TIME_TIMEOUT
  | SEMAPHORE_TAKEN
  | MUTEX_LOCKED
  | MSG_QUEUE_DATA_AVAILABLE
  | MSG_QUEUE_SPACE_AVAILABE
  | COND_VAR_SIGNALLED
  | TIMER_TIMEOUT
  | RESUME
deriving DecidableEq, Repr

/-- Return codes (`retCodes.h` is summarized in spec section 6; the numeric
values are irrelevant to the claims, so they are modelled as constructors). -/
inductive RetCode where
  | RET_SUCCESS
  | RET_BUSY
  | RET_TIMEOUT
  | RET_NOTOWNER
  | RET_NOTLOCKED
  | RET_NOSEM
  | RET_ENOSPACE
  | RET_ENODATA
  | RET_EINVAL
deriving DecidableEq, Repr

open TaskStatus BlockedReason WakeupReason RetCode

/-- `TASK_NO_WAIT` of `task.h`. -/
def TASK_NO_WAIT : Nat := 0

/-- `TASK_MAX_WAIT` (`0xffffffffUL`) of `task.h`. -/
def TASK_MAX_WAIT : Nat := 4294967295

/-- Task control block (`taskHandleType` of `task.h`); the stack pointer and
entry function play no role in the claims and are omitted. -/
structure TCB where
  priority : Nat
  status : TaskStatus
  blockedReason : BlockedReason
  wakeupReason : WakeupReason
  remainingSleepTicks : Nat
deriving DecidableEq, Repr

/-- Pointwise update of the task map at one id. -/
def updTask (tasks : TaskId → TCB) (t : TaskId) (tcb : TCB) : TaskId → TCB :=
  fun j => if j = t then tcb else tasks j

/-- `mutexHandleType` (spec section 3): lock flag, owner, saved default
priority of a boosted owner (`-1` sentinel), wait queue. -/
structure MutexState where
  locked : Bool
  ownerTask : Option TaskId
  ownerDefaultPriority : Int
  waitQueue : List TaskId
deriving DecidableEq, Repr

/-- `semaphoreHandleType` (spec section 3): count, maxCount, wait queue. -/
structure SemState where
  count : Nat
  maxCount : Nat
  waitQueue : List TaskId
deriving DecidableEq, Repr

/-- `msgQueueHandleType` (spec section 3): byte buffer of length
`queueLength * itemSize` (modelled as a function from position to byte),
read/write indices, item count, and the two wait queues. -/
structure MsgQueue where
  buffer : Nat → Nat
  readIndex : Nat
  writeIndex : Nat
  itemCount : Nat
  itemSize : Nat
  queueLength : Nat
  producerWaitQueue : List TaskId
  consumerWaitQueue : List TaskId

/-- `timerModeType` of `timer.h` (spec section 3). -/
inductive TimerMode where
  | TIMER_MODE_SINGLE_SHOT
  | TIMER_MODE_PERIODIC
deriving DecidableEq, Repr

open TimerMode

/-- Timer identifier (stands for a `timerNodeType *`). -/
abbrev TimerId := Nat

/-- `timerNodeType` (spec section 3); the handler function is abstracted by a
numeric handler id, which is what the handler queue stores. -/
structure Timer where
  intervalTicks : Nat
  ticksToExpire : Nat
  mode : TimerMode
  isRunning : Bool
  handler : Nat
deriving DecidableEq, Repr

/-- The kernel's global mutable state: the task pool (`taskPool` of `task.h`:
ready queue, blocked-timeout list, current task), the PendSV request flag, and
one instance of each synchronization primitive plus the timer service state. -/
structure Kernel where
  tasks : TaskId → TCB
  readyQueue : List TaskId
  blockedQueue : List TaskId
  currentTask : TaskId
  pendSV : Bool
  mutex : MutexState
  sem : SemState
  msgq : MsgQueue
  condVarQueue : List TaskId
  condVarMutexValid : Bool
  timers : TimerId → Timer
  timerList : List TimerId
  timeoutHandlerQueue : List Nat
  timerTaskId : TaskId

/-- Modelled from the spec (section 4.1), `taskQueue.c` being absent from the
sources: priority-ordered insertion; the added task is placed after all tasks
of strictly better (numerically lower) priority and after all equal-priority
tasks already present, i.e. before the first task of numerically greater
priority. -/
def taskQueueAdd (tasks : TaskId → TCB) : List TaskId → TaskId → List TaskId
  | [], t => [t]
  | h :: rest, t =>
      if (tasks t).priority < (tasks h).priority then t :: h :: rest
      else h :: taskQueueAdd tasks rest t

/-- Modelled from the spec (section 4.2), `task.c` being absent from the
sources: `taskSetReady(t, wakeReason)` removes `t` from the blocked-timeout
list and from whichever primitive wait queue holds it, clears
`remainingSleepTicks`, sets status READY and the wakeup reason, and inserts
`t` into the ready queue. -/
def taskSetReady (k : Kernel) (t : TaskId) (wr : WakeupReason) : Kernel :=
  let k1 : Kernel :=
    { k with
      blockedQueue := k.blockedQueue.erase t
      mutex := { k.mutex with waitQueue := k.mutex.waitQueue.erase t }
      sem := { k.sem with waitQueue := k.sem.waitQueue.erase t }
      msgq := { k.msgq with
                producerWaitQueue := k.msgq.producerWaitQueue.erase t
                consumerWaitQueue := k.msgq.consumerWaitQueue.erase t }
      condVarQueue := k.condVarQueue.erase t
      tasks := updTask k.tasks t
        ({ k.tasks t with
          status := TASK_STATUS_READY
          wakeupReason := wr
          remainingSleepTicks := 0 }) }
  { k1 with readyQueue := taskQueueAdd k1.tasks k1.readyQueue t }

/-- `taskQueueGet`d head made RUNNING and current, with PendSV requested:
the tail of `scheduleNextTask` (`scheduler.c` lines 80-90). -/
def schedulePop (k : Kernel) : Kernel :=
  match k.readyQueue with
  | [] => k
  | nextTask :: rest =>
      { k with
        readyQueue := rest
        tasks := updTask k.tasks nextTask
          ({ k.tasks nextTask with status := TASK_STATUS_RUNNING })
        currentTask := nextTask
        pendSV := true }

/-- `scheduleNextTask` of `scheduler.c` (lines 54-92): if the ready queue is
non-empty and the current task is RUNNING, switch only when the head of the
ready queue has equal or better (numerically lower or equal) priority, first
re-inserting the current task as READY; the PendSV request is modelled by the
`pendSV` flag. -/
def scheduleNextTask (k : Kernel) : Kernel :=
  match k.readyQueue with
  | [] => k
  | nextReadyTask :: _ =>
      if (k.tasks k.currentTask).status = TASK_STATUS_RUNNING then
        if (k.tasks nextReadyTask).priority ≤ (k.tasks k.currentTask).priority then
          let curReady : TCB := { k.tasks k.currentTask with status := TASK_STATUS_READY }
          let k1 : Kernel := { k with tasks := updTask k.tasks k.currentTask curReady }
          schedulePop { k1 with
            readyQueue := taskQueueAdd k1.tasks k1.readyQueue k.currentTask }
        else k
      else schedulePop k

/-- Modelled from the spec (section 4.2), `task.c` being absent from the
sources: `taskBlock(t, reason, ticks)` sets status BLOCKED with the reason,
sets `remainingSleepTicks` to `ticks` where `ticks == TASK_MAX_WAIT` means "no
timeout" (`remainingSleepTicks == 0` at block time), inserts `t` into the
blocked-timeout list, and yields. -/
def taskBlock (k : Kernel) (t : TaskId) (reason : BlockedReason) (ticks : Nat) : Kernel :=
  let blocked : TCB :=
    { k.tasks t with
      status := TASK_STATUS_BLOCKED
      blockedReason := reason
      remainingSleepTicks := if ticks = TASK_MAX_WAIT then 0 else ticks }
  let k1 : Kernel := { k with tasks := updTask k.tasks t blocked }
  scheduleNextTask { k1 with blockedQueue := taskQueueAdd k1.tasks k1.blockedQueue t }

/-- The body of the `checkTimeout` loop of `scheduler.c` (lines 109-119) for
one blocked task: decrement a positive `remainingSleepTicks`; when it reaches
0, set the task ready with `SLEEP_TIME_TIMEOUT` if it was sleeping and
`WAIT_TIMEOUT` otherwise. -/
def checkTimeoutStep (k : Kernel) (t : TaskId) : Kernel :=
  let tcb := k.tasks t
  if tcb.remainingSleepTicks > 0 then
    let dec : TCB := { tcb with remainingSleepTicks := tcb.remainingSleepTicks - 1 }
    let k1 : Kernel := { k with tasks := updTask k.tasks t dec }
    if tcb.remainingSleepTicks - 1 = 0 then
      if tcb.blockedReason = SLEEP then taskSetReady k1 t SLEEP_TIME_TIMEOUT
      else taskSetReady k1 t WAIT_TIMEOUT
    else k1
  else k

/-- `checkTimeout` of `scheduler.c` (lines 98-122), walking a snapshot of the
blocked-timeout list (the C loop captures each node's next pointer before the
state transition, and only the node being readied is removed). -/
def checkTimeoutAux : List TaskId → Kernel → Kernel
  | [], k => k
  | t :: rest, k => checkTimeoutAux rest (checkTimeoutStep k t)

/-- `checkTimeout` of `scheduler.c`: iterate over the blocked-timeout list. -/
def checkTimeout (k : Kernel) : Kernel := checkTimeoutAux k.blockedQueue k

/-- The priority-inheritance stage of `mutexLock` (`mutex.c` lines 52-63,
under `MUTEX_USE_PRIORITY_INHERITANCE`): if the mutex has an owner and the
caller's priority is numerically smaller (better) than the owner's, the
owner's default priority is saved in `ownerDefaultPriority` unless already
saved (`-1` sentinel) and the owner's priority is set to the caller's. -/
def mutexBoost (k : Kernel) : Kernel :=
  match k.mutex.ownerTask with
  | none => k
  | some ow =>
      if (k.tasks k.currentTask).priority < (k.tasks ow).priority then
        let m1 : MutexState :=
          if k.mutex.ownerDefaultPriority = -1 then
            { k.mutex with ownerDefaultPriority := ((k.tasks ow).priority : Int) }
          else k.mutex
        let boosted : TCB := { k.tasks ow with priority := (k.tasks k.currentTask).priority }
        { k with mutex := m1, tasks := updTask k.tasks ow boosted }
      else k

/-- The availability check and wait path of `mutexLock` (`mutex.c` lines
64-100), applied after the priority-inheritance stage.  `env` abstracts the
execution of the rest of the system while the caller is blocked. -/
def mutexLockAvail (env : Kernel → Kernel) (k1 : Kernel) (waitTicks : Nat) :
    RetCode × Kernel :=
  let cur := k1.currentTask
  if k1.mutex.locked = false then
    (RET_SUCCESS, { k1 with mutex := { k1.mutex with locked := true, ownerTask := some cur } })
  else if waitTicks = TASK_NO_WAIT then
    (RET_BUSY, k1)
  else
    let k2 : Kernel :=
      { k1 with mutex := { k1.mutex with waitQueue := taskQueueAdd k1.tasks k1.mutex.waitQueue cur } }
    let k4 := env (taskBlock k2 cur WAIT_FOR_MUTEX waitTicks)
    if (k4.tasks cur).wakeupReason = MUTEX_LOCKED ∧ k4.mutex.ownerTask = some cur then
      (RET_SUCCESS, k4)
    else
      (RET_TIMEOUT, k4)

/-- `mutexLock` of `mutex.c` (lines 43-104): priority inheritance, then
availability check / wait path. -/
def mutexLock (env : Kernel → Kernel) (k : Kernel) (waitTicks : Nat) : RetCode × Kernel :=
  mutexLockAvail env (mutexBoost k) waitTicks

/-- The state in which a contended `mutexLock` caller has blocked (boost done,
caller appended to the mutex wait queue, `taskBlock` performed): the state the
environment transforms while the caller waits. -/
def mutexLockPending (k : Kernel) (waitTicks : Nat) : Kernel :=
  let k1 := mutexBoost k
  let k2 : Kernel :=
    { k1 with mutex :=
        { k1.mutex with waitQueue := taskQueueAdd k1.tasks k1.mutex.waitQueue k1.currentTask } }
  taskBlock k2 k1.currentTask WAIT_FOR_MUTEX waitTicks

/-- `taskYield` of `scheduler.c` (lines 127-143) in the `TASKS_RUN_PRIV`
configuration: run the scheduling decision inside an interrupt-disabled
region (the unprivileged path reaches the same `scheduleNextTask` through the
SVC handler). -/
def taskYieldK (k : Kernel) : Kernel := scheduleNextTask k

/-- The priority-restore stage of `mutexUnlock` (`mutex.c` lines 134-143,
under `MUTEX_USE_PRIORITY_INHERITANCE`): if a boost was recorded
(`ownerDefaultPriority != -1`), give the owner its default priority back and
reset the sentinel.  This stage runs under the `ownerTask == currentTask`
check, so the owner whose priority the C code restores is the current task. -/
def mutexRestore (k : Kernel) : Kernel :=
  if k.mutex.ownerDefaultPriority ≠ -1 then
    let restored : TCB :=
      { k.tasks k.currentTask with priority := k.mutex.ownerDefaultPriority.toNat }
    { k with
      tasks := updTask k.tasks k.currentTask restored
      mutex := { k.mutex with ownerDefaultPriority := -1 } }
  else k

/-- `mutexUnlock` of `mutex.c` (lines 114-185): ownership check, locked check,
restore of a boosted owner's default priority, ownership handover to the head
of the wait queue (kept locked) or full release, and a cooperative yield when
the next owner has equal or better priority than the caller. -/
def mutexUnlock (k : Kernel) : RetCode × Kernel :=
  let cur := k.currentTask
  if k.mutex.ownerTask = some cur then
    if k.mutex.locked then
      let k1 : Kernel := mutexRestore k
      match k1.mutex.waitQueue with
      | nextOwner :: rest =>
          let k2 : Kernel :=
            { k1 with mutex := { k1.mutex with ownerTask := some nextOwner, waitQueue := rest } }
          let k3 := taskSetReady k2 nextOwner MUTEX_LOCKED
          if (k3.tasks nextOwner).priority ≤ (k3.tasks k3.currentTask).priority then
            (RET_SUCCESS, taskYieldK k3)
          else
            (RET_SUCCESS, k3)
      | [] =>
          (RET_SUCCESS, { k1 with mutex := { k1.mutex with ownerTask := none, locked := false } })
    else
      (RET_NOTLOCKED, k)
  else
    (RET_NOTOWNER, k)

/-- The mutex invariant of spec section 3: `locked ⇔ ownerTask ≠ none`. -/
def mutexInvariant (m : MutexState) : Prop :=
  m.locked = true ↔ m.ownerTask ≠ none

instance (m : MutexState) : Decidable (mutexInvariant m) := by
  unfold mutexInvariant; infer_instance

/-- `semaphoreTake` of `semaphore.c` (lines 42-73).  `env` abstracts the
execution of the rest of the system while the caller is blocked. -/
def semaphoreTake (env : Kernel → Kernel) (k : Kernel) (waitTicks : Nat) :
    RetCode × Kernel :=
  if k.sem.count ≠ 0 then
    (RET_SUCCESS, { k with sem := { k.sem with count := k.sem.count - 1 } })
  else if waitTicks = TASK_NO_WAIT then
    (RET_BUSY, k)
  else
    let cur := k.currentTask
    let k1 : Kernel :=
      { k with sem := { k.sem with waitQueue := taskQueueAdd k.tasks k.sem.waitQueue cur } }
    let k2 := env (taskBlock k1 cur WAIT_FOR_SEMAPHORE waitTicks)
    if (k2.tasks cur).wakeupReason = SEMAPHORE_TAKEN then
      (RET_SUCCESS, k2)
    else
      (RET_TIMEOUT, k2)

/-- `semaphoreGive` of `semaphore.c` (lines 81-103): full check, pop of the
wait-queue head (readied with `SEMAPHORE_TAKEN`, count unchanged) or count
increment. -/
def semaphoreGive (k : Kernel) : RetCode × Kernel :=
  if k.sem.count ≠ k.sem.maxCount then
    match k.sem.waitQueue with
    | nextTask :: rest =>
        (RET_SUCCESS,
          taskSetReady { k with sem := { k.sem with waitQueue := rest } } nextTask SEMAPHORE_TAKEN)
    | [] =>
        (RET_SUCCESS, { k with sem := { k.sem with count := k.sem.count + 1 } })
  else
    (RET_NOSEM, k)

/-- `memcpy(&buffer[idx], src, n)`: overwrite `n` bytes of the buffer starting
at `idx` with the bytes of `src`. -/
def memWrite (buf : Nat → Nat) (idx : Nat) (src : List Nat) (n : Nat) : Nat → Nat :=
  fun j => if idx ≤ j ∧ j < idx + n then src.getD (j - idx) 0 else buf j

/-- `memcpy(dst, &buffer[idx], n)`: read `n` bytes of the buffer starting at
`idx`. -/
def memRead (buf : Nat → Nat) (idx n : Nat) : List Nat :=
  (List.range n).map (fun o => buf (idx + o))

/-- `msgQueueFull` of `messageQueue.h` (spec section 3 invariant:
`itemCount == queueLength` means full). -/
def msgQueueFull (q : MsgQueue) : Bool := q.itemCount = q.queueLength

/-- `msgQueueEmpty` of `messageQueue.h` (spec section 3 invariant:
`itemCount == 0` means empty). -/
def msgQueueEmpty (q : MsgQueue) : Bool := q.itemCount = 0

/-- `msgQueueBufferWrite` of `messageQueue.c` (lines 24-34): copy `itemSize`
bytes of the item at `writeIndex`, advance `writeIndex` by `itemSize` modulo
`queueLength * itemSize`, increment `itemCount`, and pop one waiting consumer
(if any), made ready with `MSG_QUEUE_DATA_AVAILABLE`. -/
def msgQueueBufferWrite (k : Kernel) (item : List Nat) : Kernel :=
  let q := k.msgq
  let q1 : MsgQueue :=
    { q with
      buffer := memWrite q.buffer q.writeIndex item q.itemSize
      writeIndex := (q.writeIndex + q.itemSize) % (q.queueLength * q.itemSize)
      itemCount := q.itemCount + 1 }
  match q1.consumerWaitQueue with
  | consumer :: rest =>
      taskSetReady { k with msgq := { q1 with consumerWaitQueue := rest } }
        consumer MSG_QUEUE_DATA_AVAILABLE
  | [] => { k with msgq := q1 }

/-- `msgQueueBufferRead` of `messageQueue.c` (lines 42-52): read `itemSize`
bytes at `readIndex`, advance `readIndex` by `itemSize` modulo
`queueLength * itemSize`, decrement `itemCount`, and pop one waiting producer
(if any), made ready with `MSG_QUEUE_SPACE_AVAILABE`. -/
def msgQueueBufferRead (k : Kernel) : List Nat × Kernel :=
  let q := k.msgq
  let item := memRead q.buffer q.readIndex q.itemSize
  let q1 : MsgQueue :=
    { q with
      readIndex := (q.readIndex + q.itemSize) % (q.queueLength * q.itemSize)
      itemCount := q.itemCount - 1 }
  match q1.producerWaitQueue with
  | producer :: rest =>
      (item, taskSetReady { k with msgq := { q1 with producerWaitQueue := rest } }
        producer MSG_QUEUE_SPACE_AVAILABE)
  | [] => (item, { k with msgq := q1 })

/-- `msgQueueSend` of `messageQueue.c` (lines 65-100).  The `none` queue-handle
case (`-EINVAL`) is not modelled: the embedded state always holds a queue.
`env` abstracts the execution of the rest of the system while the caller is
blocked waiting for space. -/
def msgQueueSend (env : Kernel → Kernel) (k : Kernel) (item : List Nat)
    (waitTicks : Nat) : RetCode × Kernel :=
  if msgQueueFull k.msgq = false then
    (RET_SUCCESS, msgQueueBufferWrite k item)
  else if waitTicks = TASK_NO_WAIT then
    (RET_ENOSPACE, k)
  else
    let cur := k.currentTask
    let k1 : Kernel :=
      { k with msgq :=
          { k.msgq with producerWaitQueue := taskQueueAdd k.tasks k.msgq.producerWaitQueue cur } }
    let k2 := env (taskBlock k1 cur WAIT_FOR_MSG_QUEUE_SPACE waitTicks)
    if (k2.tasks cur).wakeupReason = MSG_QUEUE_SPACE_AVAILABE ∧ msgQueueFull k2.msgq = false then
      (RET_SUCCESS, msgQueueBufferWrite k2 item)
    else
      (RET_TIMEOUT, k2)

/-- `msgQueueReceive` of `messageQueue.c` (lines 113-147).  The received item
is returned alongside the return code.  `env` abstracts the execution of the
rest of the system while the caller is blocked waiting for data. -/
def msgQueueReceive (env : Kernel → Kernel) (k : Kernel) (waitTicks : Nat) :
    RetCode × List Nat × Kernel :=
  if msgQueueEmpty k.msgq = false then
    let (item, k1) := msgQueueBufferRead k
    (RET_SUCCESS, item, k1)
  else if waitTicks = TASK_NO_WAIT then
    (RET_ENODATA, [], k)
  else
    let cur := k.currentTask
    let k1 : Kernel :=
      { k with msgq :=
          { k.msgq with consumerWaitQueue := taskQueueAdd k.tasks k.msgq.consumerWaitQueue cur } }
    let k2 := env (taskBlock k1 cur WAIT_FOR_MSG_QUEUE_DATA waitTicks)
    if (k2.tasks cur).wakeupReason = MSG_QUEUE_DATA_AVAILABLE ∧ msgQueueEmpty k2.msgq = false then
      let (item, k3) := msgQueueBufferRead k2
      (RET_SUCCESS, item, k3)
    else
      (RET_TIMEOUT, [], k2)

/-- Iterated non-blocking `msgQueueSend` of a list of items. -/
def sendAll (k : Kernel) : List (List Nat) → List RetCode × Kernel
  | [] => ([], k)
  | item :: rest =>
      let (rc, k1) := msgQueueSend id k item TASK_NO_WAIT
      let (rcs, k2) := sendAll k1 rest
      (rc :: rcs, k2)

/-- Iterated non-blocking `msgQueueReceive`, `n` times. -/
def recvN (k : Kernel) : Nat → List (List Nat) × List RetCode × Kernel
  | 0 => ([], [], k)
  | n + 1 =>
      let (rc, item, k1) := msgQueueReceive id k TASK_NO_WAIT
      let (items, rcs, k2) := recvN k1 n
      (item :: items, rc :: rcs, k2)

/-- `condVarWait` of `conditionVariable.c` (lines 31-55): check the associated
mutex, unlock it, enqueue the caller on the condition variable's wait queue,
block, re-acquire the mutex with `TASK_MAX_WAIT` on resume, and return `true`
iff the caller's wakeup reason is not `WAIT_TIMEOUT`.  `env` abstracts the
execution of the rest of the system while the caller is blocked on the
condition variable, and `envLock` the one inside the re-acquiring `mutexLock`
(the caller that resumes and carries on is the current task at entry). -/
def condVarWait (env envLock : Kernel → Kernel) (k : Kernel) (waitTicks : Nat) :
    Bool × Kernel :=
  if k.condVarMutexValid = false then
    (false, k)
  else
    let cur := k.currentTask
    let k1 := (mutexUnlock k).2
    let k2 : Kernel := { k1 with condVarQueue := taskQueueAdd k1.tasks k1.condVarQueue cur }
    let k3 := taskBlock k2 cur WAIT_FOR_COND_VAR waitTicks
    let k4 := env k3
    let k5 := (mutexLock envLock k4 TASK_MAX_WAIT).2
    if (k5.tasks cur).wakeupReason = WAIT_TIMEOUT then
      (false, k5)
    else
      (true, k5)

/-- `timerStop` of `timer.c` (lines 152-159): if running, clear the running
flag and unlink the timer from the list of running timers. -/
def timerStop (k : Kernel) (i : TimerId) : Kernel :=
  if (k.timers i).isRunning then
    { k with
      timers := fun j => if j = i then { k.timers i with isRunning := false } else k.timers j
      timerList := k.timerList.erase i }
  else k

/-- `timerStart` of `timer.c` (lines 131-144): ignore if already running,
otherwise mark running, set `ticksToExpire = intervalTicks = ticks` and
prepend to the list of running timers. -/
def timerStart (k : Kernel) (i : TimerId) (intervalTicks : Nat) : Kernel :=
  if (k.timers i).isRunning then k
  else
    { k with
      timers := fun j =>
        if j = i then
          { k.timers i with
            isRunning := true
            ticksToExpire := intervalTicks
            intervalTicks := intervalTicks }
        else k.timers j
      timerList := i :: k.timerList }

/-- The expiry path of the `processTimers` walk (`timer.c` lines 180-195) on
the already-decremented state: push the timer's handler onto the
timeout-handler queue, set a BLOCKED timer task ready with `TIMER_TIMEOUT`,
reload `ticksToExpire` from `intervalTicks`, and stop a single-shot timer. -/
def processTimerFire (k1 : Kernel) (i : TimerId) : Kernel :=
  let ka : Kernel :=
    { k1 with timeoutHandlerQueue := k1.timeoutHandlerQueue ++ [(k1.timers i).handler] }
  let kb : Kernel :=
    if (ka.tasks ka.timerTaskId).status = TASK_STATUS_BLOCKED then
      taskSetReady ka ka.timerTaskId TIMER_TIMEOUT
    else ka
  let kc : Kernel :=
    { kb with timers := fun j =>
        if j = i then { kb.timers i with ticksToExpire := (kb.timers i).intervalTicks }
        else kb.timers j }
  if (kc.timers i).mode = TIMER_MODE_SINGLE_SHOT then timerStop kc i else kc

/-- One step of the `processTimers` walk (`timer.c` lines 170-197) on timer
`i`: decrement a positive `ticksToExpire`; if it is then 0, run the expiry
path. -/
def processTimerStep (k : Kernel) (i : TimerId) : Kernel :=
  let tm := k.timers i
  let tm1 : Timer :=
    if tm.ticksToExpire > 0 then { tm with ticksToExpire := tm.ticksToExpire - 1 } else tm
  let k1 : Kernel := { k with timers := fun j => if j = i then tm1 else k.timers j }
  if (k1.timers i).ticksToExpire = 0 then processTimerFire k1 i else k1

/-- `processTimers` of `timer.c` (lines 165-199), walking a snapshot of the
running-timer list (the C loop captures each node's next pointer before any
deletion, and only the node being stopped is unlinked). -/
def processTimersAux : List TimerId → Kernel → Kernel
  | [], k => k
  | i :: rest, k => processTimersAux rest (processTimerStep k i)

/-- `processTimers` of `timer.c`: iterate over the running-timer list. -/
def processTimers (k : Kernel) : Kernel := processTimersAux k.timerList k

/-- A concrete kernel: task 0 (priority 100) running, tasks 1 (priority 50)
and 2 (priority 200) ready. -/
def sampleTCBs1 : TaskId → TCB := fun t =>
  if t = 0 then ⟨100, TASK_STATUS_RUNNING, BLOCK_REASON_NONE, WAKEUP_REASON_NONE, 0⟩
  else if t = 1 then ⟨50, TASK_STATUS_READY, BLOCK_REASON_NONE, WAKEUP_REASON_NONE, 0⟩
  else if t = 2 then ⟨200, TASK_STATUS_READY, BLOCK_REASON_NONE, WAKEUP_REASON_NONE, 0⟩
  else ⟨255, TASK_STATUS_READY, BLOCK_REASON_NONE, WAKEUP_REASON_NONE, 0⟩

/-- A concrete empty message queue of 3 items of 2 bytes each. -/
def sampleMsgQ : MsgQueue := ⟨fun _ => 0, 0, 0, 0, 2, 3, [], []⟩

/-- A concrete kernel state for instantiating the scheduler theorems. -/
def sampleK1 : Kernel :=
  { tasks := sampleTCBs1, readyQueue := [1, 2], blockedQueue := [], currentTask := 0,
    pendSV := false, mutex := ⟨false, none, -1, []⟩, sem := ⟨0, 3, []⟩, msgq := sampleMsgQ,
    condVarQueue := [], condVarMutexValid := true,
    timers := fun _ => ⟨0, 0, TIMER_MODE_PERIODIC, false, 0⟩, timerList := [],
    timeoutHandlerQueue := [], timerTaskId := 9 }

/-- Owner 0 (priority 100, running) holds the locked mutex; task 5
(priority 60) waits on it. -/
def sampleTCBs2 : TaskId → TCB := fun t =>
  if t = 0 then ⟨100, TASK_STATUS_RUNNING, BLOCK_REASON_NONE, WAKEUP_REASON_NONE, 0⟩
  else if t = 5 then ⟨60, TASK_STATUS_BLOCKED, WAIT_FOR_MUTEX, WAKEUP_REASON_NONE, 0⟩
  else ⟨255, TASK_STATUS_READY, BLOCK_REASON_NONE, WAKEUP_REASON_NONE, 0⟩

/-- A kernel in which the current task 0 owns the locked mutex and task 5
waits for it. -/
def sampleK2 : Kernel :=
  { sampleK1 with tasks := sampleTCBs2, readyQueue := [], mutex := ⟨true, some 0, -1, [5]⟩ }

/-- The current task 0 (priority 100) attempts to lock a mutex owned by
task 2 (priority 200), no boost recorded yet. -/
def sampleK3a : Kernel := { sampleK1 with mutex := ⟨true, some 2, -1, []⟩ }

/-- The current task 0 owns the locked mutex with a recorded default
priority of 200 (it is currently boosted to 100). -/
def sampleK3b : Kernel := { sampleK1 with mutex := ⟨true, some 0, 200, []⟩ }

/-- An unlocked mutex that still records task 0 as owner (a state violating
the invariant, reachable only by misuse). -/
def sampleK4b : Kernel := { sampleK1 with mutex := ⟨false, some 0, -1, []⟩ }

/-- A kernel whose semaphore (count 0 of 3) has task 5 waiting. -/
def sampleK5 : Kernel :=
  { sampleK1 with tasks := sampleTCBs2, sem := ⟨0, 3, [5]⟩ }

/-- Blocked tasks for the tick-service witness: task 3 sleeping with 1 tick
left, task 4 waiting on a semaphore with 2 ticks left, task 6 blocked with no
timeout. -/
def sampleTCBs6 : TaskId → TCB := fun t =>
  if t = 3 then ⟨10, TASK_STATUS_BLOCKED, SLEEP, WAKEUP_REASON_NONE, 1⟩
  else if t = 4 then ⟨20, TASK_STATUS_BLOCKED, WAIT_FOR_SEMAPHORE, WAKEUP_REASON_NONE, 2⟩
  else if t = 6 then ⟨30, TASK_STATUS_BLOCKED, WAIT_FOR_MUTEX, WAKEUP_REASON_NONE, 0⟩
  else sampleTCBs1 t

/-- A kernel with tasks 3, 4 and 6 on the blocked-timeout list. -/
def sampleK6 : Kernel := { sampleK1 with tasks := sampleTCBs6, blockedQueue := [3, 4, 6] }

/-- Concrete timers: 7 single-shot about to fire, 8 periodic about to fire
(interval 5), 10 periodic with 3 ticks left. -/
def sampleTimers : TimerId → Timer := fun i =>
  if i = 7 then ⟨5, 1, TIMER_MODE_SINGLE_SHOT, true, 42⟩
  else if i = 8 then ⟨5, 1, TIMER_MODE_PERIODIC, true, 43⟩
  else if i = 10 then ⟨5, 3, TIMER_MODE_PERIODIC, true, 44⟩
  else ⟨0, 0, TIMER_MODE_PERIODIC, false, 0⟩

/-- Task map with the timer task (id 9) blocked waiting for a timer. -/
def sampleTCBs9 : TaskId → TCB := fun t =>
  if t = 9 then ⟨0, TASK_STATUS_BLOCKED, WAIT_FOR_TIMER_TIMEOUT, WAKEUP_REASON_NONE, 0⟩
  else sampleTCBs1 t

/-- A kernel with the three sample timers running. -/
def sampleK9 : Kernel :=
  { sampleK1 with tasks := sampleTCBs9, timers := sampleTimers, timerList := [7, 8, 10] }

/-- The state in which a `condVarWait` caller has blocked: the associated
mutex released, the caller enqueued on the condition variable's wait queue
and `taskBlock`ed with `WAIT_FOR_COND_VAR` — the state the environment
transforms while the caller waits. -/
def condVarWaitPending (k : Kernel) (waitTicks : Nat) : Kernel :=
  let k1 := (mutexUnlock k).2
  let k2 : Kernel :=
    { k1 with condVarQueue := taskQueueAdd k1.tasks k1.condVarQueue k.currentTask }
  taskBlock k2 k.currentTask WAIT_FOR_COND_VAR waitTicks

/-- A kernel whose current task 0 holds the condition variable's mutex. -/
def sampleK8 : Kernel := { sampleK1 with mutex := ⟨true, some 0, -1, []⟩ }

/-- Position in the byte buffer at which the `i`-th pending item starts
(`readIndex` advanced by `i` item slots around the ring). -/
def slot (q : MsgQueue) (i : Nat) : Nat :=
  (q.readIndex + i * q.itemSize) % (q.queueLength * q.itemSize)

/-- The pending items of the message queue, oldest first, as read back from
the byte buffer. -/
def contents (q : MsgQueue) : List (List Nat) :=
  (List.range q.itemCount).map (fun i => memRead q.buffer (slot q i) q.itemSize)

/-- Well-formedness of the ring-buffer indices (spec section 3:
`writeIndex`/`readIndex` advance by `itemSize` modulo
`queueLength * itemSize`, `itemCount` counts the pending items). -/
structure MsgQWF (q : MsgQueue) : Prop where
  size_pos : 0 < q.itemSize
  len_pos : 0 < q.queueLength
  count_le : q.itemCount ≤ q.queueLength
  read_lt : q.readIndex < q.queueLength * q.itemSize
  read_align : q.readIndex % q.itemSize = 0
  write_eq : q.writeIndex = (q.readIndex + q.itemCount * q.itemSize) % (q.queueLength * q.itemSize)

/-- Invariant carried through the round-trip induction: a well-formed ring
buffer with both wait queues empty. -/
def MsgQKInv (k : Kernel) : Prop :=
  MsgQWF k.msgq ∧ k.msgq.producerWaitQueue = [] ∧ k.msgq.consumerWaitQueue = []

theorem updTask_self (tasks : TaskId → TCB) (t : TaskId) (tcb : TCB) :
    updTask tasks t tcb t = tcb := by
  simp [updTask]

theorem updTask_ne (tasks : TaskId → TCB) (t j : TaskId) (tcb : TCB) (h : j ≠ t) :
    updTask tasks t tcb j = tasks j := by
  simp [updTask, h]

theorem mem_taskQueueAdd_self (tasks : TaskId → TCB) (q : List TaskId) (t : TaskId) :
    t ∈ taskQueueAdd tasks q t := by
  induction q with
  | nil => simp [taskQueueAdd]
  | cons h rest ih =>
      unfold taskQueueAdd
      split
      · exact List.mem_cons_self t (h :: rest)
      · exact List.mem_cons_of_mem h ih

theorem taskQueueAdd_cons_of_le (tasks : TaskId → TCB) (h : TaskId) (rest : List TaskId)
    (t : TaskId) (hle : (tasks h).priority ≤ (tasks t).priority) :
    taskQueueAdd tasks (h :: rest) t = h :: taskQueueAdd tasks rest t := by
  conv_lhs => rw [taskQueueAdd]
  rw [if_neg (Nat.not_lt.mpr hle)]

theorem schedulePop_tcb (k : Kernel) (t : TaskId) :
    ∃ st, (schedulePop k).tasks t = { k.tasks t with status := st } := by
  unfold schedulePop
  cases hq : k.readyQueue with
  | nil => exact ⟨(k.tasks t).status, rfl⟩
  | cons h rest =>
      by_cases ht : t = h
      · subst ht
        exact ⟨TASK_STATUS_RUNNING, by simp [updTask]⟩
      · exact ⟨(k.tasks t).status, by simp [updTask, ht]⟩

theorem scheduleNextTask_tcb (k : Kernel) (t : TaskId) :
    ∃ st, (scheduleNextTask k).tasks t = { k.tasks t with status := st } := by
  unfold scheduleNextTask
  cases hq : k.readyQueue with
  | nil => exact ⟨(k.tasks t).status, rfl⟩
  | cons h rest =>
      simp only
      split
      · split
        · obtain ⟨s1, h1⟩ := schedulePop_tcb _ t
          rw [h1]
          by_cases ht : t = k.currentTask
          · subst ht
            exact ⟨s1, by simp [updTask]⟩
          · exact ⟨s1, by simp [updTask, ht]⟩
        · exact ⟨(k.tasks t).status, rfl⟩
      · exact schedulePop_tcb k t

theorem scheduleNextTask_priority (k : Kernel) (t : TaskId) :
    ((scheduleNextTask k).tasks t).priority = (k.tasks t).priority := by
  rcases scheduleNextTask_tcb k t with ⟨st, hst⟩
  rw [hst]

theorem scheduleNextTask_wakeup (k : Kernel) (t : TaskId) :
    ((scheduleNextTask k).tasks t).wakeupReason = (k.tasks t).wakeupReason := by
  rcases scheduleNextTask_tcb k t with ⟨st, hst⟩
  rw [hst]

theorem scheduleNextTask_blockedReason (k : Kernel) (t : TaskId) :
    ((scheduleNextTask k).tasks t).blockedReason = (k.tasks t).blockedReason := by
  rcases scheduleNextTask_tcb k t with ⟨st, hst⟩
  rw [hst]

theorem scheduleNextTask_remaining (k : Kernel) (t : TaskId) :
    ((scheduleNextTask k).tasks t).remainingSleepTicks = (k.tasks t).remainingSleepTicks := by
  rcases scheduleNextTask_tcb k t with ⟨st, hst⟩
  rw [hst]

theorem schedulePop_fields (k : Kernel) :
    (schedulePop k).mutex = k.mutex ∧ (schedulePop k).sem = k.sem ∧
    (schedulePop k).msgq = k.msgq ∧ (schedulePop k).condVarQueue = k.condVarQueue ∧
    (schedulePop k).condVarMutexValid = k.condVarMutexValid ∧
    (schedulePop k).blockedQueue = k.blockedQueue ∧
    (schedulePop k).timers = k.timers ∧ (schedulePop k).timerList = k.timerList ∧
    (schedulePop k).timeoutHandlerQueue = k.timeoutHandlerQueue ∧
    (schedulePop k).timerTaskId = k.timerTaskId := by
  unfold schedulePop
  cases k.readyQueue <;> simp

theorem scheduleNextTask_fields (k : Kernel) :
    (scheduleNextTask k).mutex = k.mutex ∧ (scheduleNextTask k).sem = k.sem ∧
    (scheduleNextTask k).msgq = k.msgq ∧ (scheduleNextTask k).condVarQueue = k.condVarQueue ∧
    (scheduleNextTask k).condVarMutexValid = k.condVarMutexValid ∧
    (scheduleNextTask k).blockedQueue = k.blockedQueue ∧
    (scheduleNextTask k).timers = k.timers ∧ (scheduleNextTask k).timerList = k.timerList ∧
    (scheduleNextTask k).timeoutHandlerQueue = k.timeoutHandlerQueue ∧
    (scheduleNextTask k).timerTaskId = k.timerTaskId := by
  unfold scheduleNextTask
  cases hq : k.readyQueue with
  | nil => simp
  | cons h rest =>
      simp only
      split
      · split
        · exact schedulePop_fields _
        · simp
      · exact schedulePop_fields k

theorem schedulePop_cons (k : Kernel) (h : TaskId) (rest : List TaskId)
    (hq : k.readyQueue = h :: rest) :
    (schedulePop k).currentTask = h ∧
    ((schedulePop k).tasks h).status = TASK_STATUS_RUNNING ∧
    (schedulePop k).pendSV = true ∧
    (schedulePop k).readyQueue = rest := by
  unfold schedulePop
  rw [hq]
  exact ⟨rfl, by simp [updTask], rfl, rfl⟩

/-- C1: `scheduleNextTask` follows the spec's decision algorithm: an empty
ready queue leaves the state unchanged (the running task continues); a RUNNING
current task of strictly better (numerically smaller) priority than the ready
head leaves the state unchanged (no switch); otherwise a RUNNING current task
is re-inserted into the ready queue with status READY, and the head of the
ready queue is popped, marked RUNNING, made the current task, and the deferred
context-switch exception (PendSV) is requested. -/
theorem scheduleNextTask_follows_spec (k : Kernel) :
    (k.readyQueue = [] → scheduleNextTask k = k) ∧
    (∀ h rest, k.readyQueue = h :: rest →
      (k.tasks k.currentTask).status = TASK_STATUS_RUNNING →
      (k.tasks k.currentTask).priority < (k.tasks h).priority →
      scheduleNextTask k = k) ∧
    (∀ h rest, k.readyQueue = h :: rest →
      (k.tasks k.currentTask).status = TASK_STATUS_RUNNING →
      (k.tasks h).priority ≤ (k.tasks k.currentTask).priority →
      k.currentTask ∉ k.readyQueue →
      (scheduleNextTask k).currentTask = h ∧
      ((scheduleNextTask k).tasks h).status = TASK_STATUS_RUNNING ∧
      (scheduleNextTask k).pendSV = true ∧
      ((scheduleNextTask k).tasks k.currentTask).status = TASK_STATUS_READY ∧
      k.currentTask ∈ (scheduleNextTask k).readyQueue) ∧
    (∀ h rest, k.readyQueue = h :: rest →
      (k.tasks k.currentTask).status ≠ TASK_STATUS_RUNNING →
      (scheduleNextTask k).currentTask = h ∧
      ((scheduleNextTask k).tasks h).status = TASK_STATUS_RUNNING ∧
      (scheduleNextTask k).pendSV = true ∧
      (scheduleNextTask k).readyQueue = rest) := by
  refine ⟨?_, ?_, ?_, ?_⟩
  · intro he
    unfold scheduleNextTask
    rw [he]
  · intro h rest hq hrun hlt
    unfold scheduleNextTask
    rw [hq]
    simp only
    rw [if_pos hrun, if_neg (Nat.not_le.mpr hlt)]
  · intro h rest hq hrun hle hnotin
    have hne : h ≠ k.currentTask := by
      intro e
      exact hnotin (by rw [hq, e]; exact List.mem_cons_self _ _)
    unfold scheduleNextTask
    rw [hq]
    simp only
    rw [if_pos hrun, if_pos hle]
    have hTTh :
        (updTask k.tasks k.currentTask
          ({ k.tasks k.currentTask with status := TASK_STATUS_READY })) h = k.tasks h :=
      updTask_ne _ _ _ _ hne
    have hadd := taskQueueAdd_cons_of_le
      (updTask k.tasks k.currentTask
        ({ k.tasks k.currentTask with status := TASK_STATUS_READY }))
      h rest k.currentTask (by rw [hTTh]; simp [updTask]; exact hle)
    rw [hadd]
    unfold schedulePop
    simp only
    refine ⟨?_, ?_, ?_, ?_, ?_⟩
    · trivial
    · simp [updTask]
    · trivial
    · simp [updTask, hne.symm]
    · exact mem_taskQueueAdd_self _ _ _
  · intro h rest hq hnrun
    unfold scheduleNextTask
    rw [hq]
    simp only
    rw [if_neg hnrun]
    exact schedulePop_cons k h rest hq

/-- Witness for C1, instantiating all four cases of the decision algorithm at
concrete kernels. -/
theorem scheduleNextTask_follows_spec_witness :
    (scheduleNextTask { sampleK1 with readyQueue := [] } = { sampleK1 with readyQueue := [] }) ∧
    (scheduleNextTask { sampleK1 with readyQueue := [2] } = { sampleK1 with readyQueue := [2] }) ∧
    ((scheduleNextTask sampleK1).currentTask = 1 ∧
      ((scheduleNextTask sampleK1).tasks 1).status = TASK_STATUS_RUNNING ∧
      (scheduleNextTask sampleK1).pendSV = true ∧
      ((scheduleNextTask sampleK1).tasks sampleK1.currentTask).status = TASK_STATUS_READY ∧
      sampleK1.currentTask ∈ (scheduleNextTask sampleK1).readyQueue) ∧
    ((scheduleNextTask { sampleK1 with currentTask := 3 }).currentTask = 1 ∧
      ((scheduleNextTask { sampleK1 with currentTask := 3 }).tasks 1).status =
        TASK_STATUS_RUNNING ∧
      (scheduleNextTask { sampleK1 with currentTask := 3 }).pendSV = true ∧
      (scheduleNextTask { sampleK1 with currentTask := 3 }).readyQueue = [2]) :=
  ⟨(scheduleNextTask_follows_spec { sampleK1 with readyQueue := [] }).1 rfl,
   (scheduleNextTask_follows_spec { sampleK1 with readyQueue := [2] }).2.1 2 [] rfl
     (by decide) (by decide),
   (scheduleNextTask_follows_spec sampleK1).2.2.1 1 [2] rfl (by decide) (by decide) (by decide),
   (scheduleNextTask_follows_spec { sampleK1 with currentTask := 3 }).2.2.2 1 [2] rfl (by decide)⟩

theorem mutexRestore_mutex (k : Kernel) :
    (mutexRestore k).mutex.waitQueue = k.mutex.waitQueue ∧
    (mutexRestore k).mutex.locked = k.mutex.locked ∧
    (mutexRestore k).mutex.ownerTask = k.mutex.ownerTask ∧
    (mutexRestore k).currentTask = k.currentTask := by
  unfold mutexRestore
  split <;> simp

theorem mutexRestore_tasks_ne (k : Kernel) (t : TaskId) (h : t ≠ k.currentTask) :
    (mutexRestore k).tasks t = k.tasks t := by
  unfold mutexRestore
  split
  · simp [updTask, h]
  · rfl

theorem mutexRestore_restores (k : Kernel) (hs : k.mutex.ownerDefaultPriority ≠ -1) :
    ((mutexRestore k).tasks k.currentTask).priority = k.mutex.ownerDefaultPriority.toNat ∧
    (mutexRestore k).mutex.ownerDefaultPriority = -1 := by
  unfold mutexRestore
  rw [if_pos hs]
  simp [updTask]

theorem mutexRestore_id (k : Kernel) (hs : k.mutex.ownerDefaultPriority = -1) :
    mutexRestore k = k := by
  unfold mutexRestore
  rw [if_neg (by simp [hs])]

theorem taskSetReady_facts (k : Kernel) (t : TaskId) (wr : WakeupReason) :
    (taskSetReady k t wr).mutex.ownerTask = k.mutex.ownerTask ∧
    (taskSetReady k t wr).mutex.locked = k.mutex.locked ∧
    (taskSetReady k t wr).currentTask = k.currentTask ∧
    (taskSetReady k t wr).tasks t = { k.tasks t with status := TASK_STATUS_READY, wakeupReason := wr, remainingSleepTicks := 0 } ∧
    (∀ j, j ≠ t → (taskSetReady k t wr).tasks j = k.tasks j) ∧
    (taskSetReady k t wr).mutex.ownerDefaultPriority = k.mutex.ownerDefaultPriority := by
  refine ⟨rfl, rfl, rfl, by simp [taskSetReady, updTask], ?_, rfl⟩
  intro j hj
  simp [taskSetReady, updTask, hj]

theorem taskYieldK_mutex (k : Kernel) : (taskYieldK k).mutex = k.mutex :=
  (scheduleNextTask_fields k).1

theorem taskYieldK_wakeup (k : Kernel) (t : TaskId) :
    ((taskYieldK k).tasks t).wakeupReason = (k.tasks t).wakeupReason :=
  scheduleNextTask_wakeup k t

theorem taskYieldK_remaining (k : Kernel) (t : TaskId) :
    ((taskYieldK k).tasks t).remainingSleepTicks = (k.tasks t).remainingSleepTicks :=
  scheduleNextTask_remaining k t

theorem schedulePop_status_ready (k : Kernel) (t : TaskId)
    (hr : (k.tasks t).status = TASK_STATUS_READY) :
    ((schedulePop k).tasks t).status = TASK_STATUS_READY ∨
      ((schedulePop k).currentTask = t ∧
        ((schedulePop k).tasks t).status = TASK_STATUS_RUNNING) := by
  unfold schedulePop
  cases hq : k.readyQueue with
  | nil => exact Or.inl hr
  | cons hd tl =>
      by_cases ht : t = hd
      · subst ht
        exact Or.inr ⟨rfl, by simp [updTask]⟩
      · exact Or.inl (by simp [updTask, ht, hr])

theorem scheduleNextTask_status_ready (k : Kernel) (t : TaskId)
    (hr : (k.tasks t).status = TASK_STATUS_READY) (hne : t ≠ k.currentTask) :
    ((scheduleNextTask k).tasks t).status = TASK_STATUS_READY ∨
      ((scheduleNextTask k).currentTask = t ∧
        ((scheduleNextTask k).tasks t).status = TASK_STATUS_RUNNING) := by
  unfold scheduleNextTask
  cases hq : k.readyQueue with
  | nil => exact Or.inl hr
  | cons h rest =>
      simp only
      split
      · split
        · apply schedulePop_status_ready
          simp [updTask, hne, hr]
        · exact Or.inl hr
      · exact schedulePop_status_ready k t hr

theorem taskYieldK_status_ready (k : Kernel) (t : TaskId)
    (hr : (k.tasks t).status = TASK_STATUS_READY) (hne : t ≠ k.currentTask) :
    ((taskYieldK k).tasks t).status = TASK_STATUS_READY ∨
      ((taskYieldK k).currentTask = t ∧
        ((taskYieldK k).tasks t).status = TASK_STATUS_RUNNING) :=
  scheduleNextTask_status_ready k t hr hne

/-- C2: `mutexUnlock` by the owner of a locked mutex pops the head of the wait
queue as the next owner: if the wait queue is non-empty, the head becomes the
owner, the mutex stays locked, and the head is set ready with wakeup reason
`MUTEX_LOCKED` (possibly immediately scheduled by the requested context
switch); if the wait queue is empty, the owner becomes none and `locked`
becomes false; in both cases `RET_SUCCESS` is returned. -/
theorem mutexUnlock_handover (k : Kernel)
    (howner : k.mutex.ownerTask = some k.currentTask)
    (hlocked : k.mutex.locked = true) :
    (∀ next rest, k.mutex.waitQueue = next :: rest →
      next ≠ k.currentTask →
      (mutexUnlock k).1 = RET_SUCCESS ∧
      (mutexUnlock k).2.mutex.ownerTask = some next ∧
      (mutexUnlock k).2.mutex.locked = true ∧
      ((mutexUnlock k).2.tasks next).wakeupReason = MUTEX_LOCKED ∧
      ((mutexUnlock k).2.tasks next).remainingSleepTicks = 0 ∧
      (((mutexUnlock k).2.tasks next).status = TASK_STATUS_READY ∨
        ((mutexUnlock k).2.currentTask = next ∧
          ((mutexUnlock k).2.tasks next).status = TASK_STATUS_RUNNING))) ∧
    (k.mutex.waitQueue = [] →
      (mutexUnlock k).1 = RET_SUCCESS ∧
      (mutexUnlock k).2.mutex.ownerTask = none ∧
      (mutexUnlock k).2.mutex.locked = false) := by
  constructor
  · intro next rest hwq hne
    have hw1 : (mutexRestore k).mutex.waitQueue = next :: rest :=
      (mutexRestore_mutex k).1.trans hwq
    unfold mutexUnlock
    rw [if_pos howner, if_pos hlocked]
    simp only [hw1]
    split
    · -- a cooperative yield follows the handover
      refine ⟨rfl, ?_, ?_, ?_, ?_, ?_⟩
      · rw [taskYieldK_mutex]
        rfl
      · rw [taskYieldK_mutex]
        exact (mutexRestore_mutex k).2.1.trans hlocked
      · rw [taskYieldK_wakeup, (taskSetReady_facts _ next MUTEX_LOCKED).2.2.2.1]
      · rw [taskYieldK_remaining, (taskSetReady_facts _ next MUTEX_LOCKED).2.2.2.1]
      · refine taskYieldK_status_ready _ next ?_ ?_
        · rw [(taskSetReady_facts _ next MUTEX_LOCKED).2.2.2.1]
        · rw [(taskSetReady_facts _ next MUTEX_LOCKED).2.2.1]
          exact fun e => hne (e.trans (mutexRestore_mutex k).2.2.2)
    · -- no yield: the next owner keeps lower effective priority
      refine ⟨rfl, rfl, ?_, ?_, ?_, ?_⟩
      · exact (mutexRestore_mutex k).2.1.trans hlocked
      · rw [(taskSetReady_facts _ next MUTEX_LOCKED).2.2.2.1]
      · rw [(taskSetReady_facts _ next MUTEX_LOCKED).2.2.2.1]
      · exact Or.inl (by rw [(taskSetReady_facts _ next MUTEX_LOCKED).2.2.2.1])
  · intro hwq
    have hw1 : (mutexRestore k).mutex.waitQueue = [] :=
      (mutexRestore_mutex k).1.trans hwq
    unfold mutexUnlock
    rw [if_pos howner, if_pos hlocked]
    simp only [hw1]
    exact ⟨trivial, trivial, trivial⟩

theorem taskYieldK_priority (k : Kernel) (t : TaskId) :
    ((taskYieldK k).tasks t).priority = (k.tasks t).priority :=
  scheduleNextTask_priority k t

theorem mutexBoost_basic (k : Kernel) :
    (mutexBoost k).currentTask = k.currentTask ∧
    (mutexBoost k).mutex.locked = k.mutex.locked ∧
    (mutexBoost k).mutex.ownerTask = k.mutex.ownerTask ∧
    (mutexBoost k).mutex.waitQueue = k.mutex.waitQueue := by
  unfold mutexBoost
  cases how : k.mutex.ownerTask with
  | none => exact ⟨rfl, rfl, how, rfl⟩
  | some ow =>
      simp only
      split
      · split <;> exact ⟨rfl, rfl, how, rfl⟩
      · exact ⟨rfl, rfl, how, rfl⟩

theorem mutexBoost_boosts (k : Kernel) (ow : TaskId)
    (how : k.mutex.ownerTask = some ow)
    (hp : (k.tasks k.currentTask).priority < (k.tasks ow).priority) :
    ((mutexBoost k).tasks ow).priority = (k.tasks k.currentTask).priority ∧
    (k.mutex.ownerDefaultPriority = -1 →
      (mutexBoost k).mutex.ownerDefaultPriority = ((k.tasks ow).priority : Int)) ∧
    (k.mutex.ownerDefaultPriority ≠ -1 →
      (mutexBoost k).mutex.ownerDefaultPriority = k.mutex.ownerDefaultPriority) ∧
    (∀ j, j ≠ ow → (mutexBoost k).tasks j = k.tasks j) := by
  unfold mutexBoost
  rw [how]
  simp only
  rw [if_pos hp]
  refine ⟨by simp [updTask], ?_, ?_, ?_⟩
  · intro hs
    rw [if_pos hs]
  · intro hs
    rw [if_neg hs]
  · intro j hj
    simp [updTask, hj]

/-- Witness for C2, exercising both the handover case (waiter 5 becomes owner,
mutex stays locked) and the empty-wait-queue case (full release). -/
theorem mutexUnlock_handover_witness :
    (mutexUnlock sampleK2).1 = RET_SUCCESS ∧
    (mutexUnlock sampleK2).2.mutex.ownerTask = some 5 ∧
    (mutexUnlock sampleK2).2.mutex.locked = true ∧
    ((mutexUnlock sampleK2).2.tasks 5).wakeupReason = MUTEX_LOCKED ∧
    (mutexUnlock { sampleK2 with mutex := ⟨true, some 0, -1, []⟩ }).1 = RET_SUCCESS ∧
    (mutexUnlock { sampleK2 with mutex := ⟨true, some 0, -1, []⟩ }).2.mutex.ownerTask = none ∧
    (mutexUnlock { sampleK2 with mutex := ⟨true, some 0, -1, []⟩ }).2.mutex.locked = false := by
  obtain ⟨a1, a2, a3, a4, _, _⟩ :=
    (mutexUnlock_handover sampleK2 rfl rfl).1 5 [] rfl (by decide)
  obtain ⟨b1, b2, b3⟩ :=
    (mutexUnlock_handover { sampleK2 with mutex := ⟨true, some 0, -1, []⟩ } rfl rfl).2 rfl
  exact ⟨a1, a2, a3, a4, b1, b2, b3⟩

/-- C3: priority inheritance.  Every `mutexLock` call on a mutex whose owner
has numerically greater (worse) priority than the caller first applies the
boost stage (`mutexLock = mutexLockAvail ∘ mutexBoost` definitionally): the
owner's priority becomes the caller's, and the owner's previous priority is
recorded in `ownerDefaultPriority` only when the sentinel is `-1`.  On
`mutexUnlock` by the owner of a locked mutex with a recorded boost, the
owner's priority is restored to `ownerDefaultPriority` and the sentinel reset
to `-1` (the restore stage `mutexRestore` precedes the wait-queue handover in
`mutexUnlock`). -/
theorem mutex_priority_inheritance (k : Kernel) :
    (∀ ow, k.mutex.ownerTask = some ow →
      (k.tasks k.currentTask).priority < (k.tasks ow).priority →
      ((mutexBoost k).tasks ow).priority = (k.tasks k.currentTask).priority ∧
      (k.mutex.ownerDefaultPriority = -1 →
        (mutexBoost k).mutex.ownerDefaultPriority = ((k.tasks ow).priority : Int)) ∧
      (k.mutex.ownerDefaultPriority ≠ -1 →
        (mutexBoost k).mutex.ownerDefaultPriority = k.mutex.ownerDefaultPriority) ∧
      (∀ env ticks, mutexLock env k ticks = mutexLockAvail env (mutexBoost k) ticks)) ∧
    (k.mutex.ownerTask = some k.currentTask →
      k.mutex.locked = true →
      k.mutex.ownerDefaultPriority ≠ -1 →
      k.currentTask ∉ k.mutex.waitQueue →
      ((mutexUnlock k).2.tasks k.currentTask).priority = k.mutex.ownerDefaultPriority.toNat ∧
      (mutexUnlock k).2.mutex.ownerDefaultPriority = -1) := by
  constructor
  · intro ow how hp
    obtain ⟨b1, b2, b3, _⟩ := mutexBoost_boosts k ow how hp
    exact ⟨b1, b2, b3, fun env ticks => rfl⟩
  · intro howner hlocked hs hnot
    unfold mutexUnlock
    rw [if_pos howner, if_pos hlocked]
    cases hwq : (mutexRestore k).mutex.waitQueue with
    | nil =>
        simp only [hwq]
        exact ⟨(mutexRestore_restores k hs).1, (mutexRestore_restores k hs).2⟩
    | cons next rest =>
        have hnext : next ≠ k.currentTask := by
          intro e
          apply hnot
          rw [← (mutexRestore_mutex k).1, hwq, e]
          exact List.mem_cons_self _ _
        simp only [hwq]
        split
        · constructor
          · rw [taskYieldK_priority,
              (taskSetReady_facts _ next MUTEX_LOCKED).2.2.2.2.1 k.currentTask hnext.symm]
            exact (mutexRestore_restores k hs).1
          · rw [taskYieldK_mutex]
            exact ((taskSetReady_facts _ next MUTEX_LOCKED).2.2.2.2.2).trans
              (mutexRestore_restores k hs).2
        · constructor
          · rw [(taskSetReady_facts _ next MUTEX_LOCKED).2.2.2.2.1 k.currentTask hnext.symm]
            exact (mutexRestore_restores k hs).1
          · exact ((taskSetReady_facts _ next MUTEX_LOCKED).2.2.2.2.2).trans
              (mutexRestore_restores k hs).2

/-- Witness for C3: the boost at a concrete lock attempt and the restore at a
concrete unlock. -/
theorem mutex_priority_inheritance_witness :
    ((mutexBoost sampleK3a).tasks 2).priority = 100 ∧
    (mutexBoost sampleK3a).mutex.ownerDefaultPriority = 200 ∧
    ((mutexUnlock sampleK3b).2.tasks 0).priority = 200 ∧
    (mutexUnlock sampleK3b).2.mutex.ownerDefaultPriority = -1 := by
  obtain ⟨a1, a2, _, _⟩ := (mutex_priority_inheritance sampleK3a).1 2 rfl (by decide)
  obtain ⟨b1, b2⟩ :=
    (mutex_priority_inheritance sampleK3b).2 rfl rfl (by decide) (by decide)
  exact ⟨a1, a2 rfl, b1, b2⟩

/-- C4's universal clause is false on the code: on a state satisfying the
mutex invariant with the mutex unlocked (owner `none`), `mutexUnlock` takes
the ownership check first and returns `RET_NOTOWNER`, not `RET_NOTLOCKED`. -/
theorem mutexUnlock_notlocked_counterexample :
    mutexInvariant sampleK1.mutex ∧ sampleK1.mutex.locked = false ∧
    (mutexUnlock sampleK1).1 = RET_NOTOWNER ∧
    (mutexUnlock sampleK1).1 ≠ RET_NOTLOCKED := by
  refine ⟨by decide, rfl, rfl, by decide⟩

/-- C4 (amended): `mutexUnlock` returns `RET_NOTOWNER` whenever the caller is
not the owner (this check comes first); it returns `RET_NOTLOCKED` only in
the state where the caller is recorded as owner but the mutex is not locked;
consequently, on every state satisfying the invariant `locked ⇔ owner ≠ none`,
calling `mutexUnlock` on an unlocked mutex returns `RET_NOTOWNER` (the
`RET_NOTLOCKED` branch is unreachable under the invariant). -/
theorem mutexUnlock_error_paths (k : Kernel) :
    (k.mutex.ownerTask ≠ some k.currentTask → mutexUnlock k = (RET_NOTOWNER, k)) ∧
    (k.mutex.ownerTask = some k.currentTask → k.mutex.locked = false →
      mutexUnlock k = (RET_NOTLOCKED, k)) ∧
    (mutexInvariant k.mutex → k.mutex.locked = false → mutexUnlock k = (RET_NOTOWNER, k)) := by
  refine ⟨?_, ?_, ?_⟩
  · intro h
    unfold mutexUnlock
    rw [if_neg h]
  · intro h1 h2
    unfold mutexUnlock
    rw [if_pos h1, if_neg (by simp [h2])]
  · intro hinv h2
    have hnone : k.mutex.ownerTask = none := by
      by_contra hne
      have hl := hinv.mpr hne
      rw [h2] at hl
      exact Bool.false_ne_true hl
    unfold mutexUnlock
    rw [if_neg (by simp [hnone])]

/-- Witness for the amended C4 on concrete states: wrong owner, owner without
lock, and an invariant-satisfying unlocked mutex. -/
theorem mutexUnlock_error_paths_witness :
    mutexUnlock sampleK3a = (RET_NOTOWNER, sampleK3a) ∧
    mutexUnlock sampleK4b = (RET_NOTLOCKED, sampleK4b) ∧
    mutexUnlock sampleK1 = (RET_NOTOWNER, sampleK1) :=
  ⟨(mutexUnlock_error_paths sampleK3a).1 (by decide),
   (mutexUnlock_error_paths sampleK4b).2.1 rfl rfl,
   (mutexUnlock_error_paths sampleK1).2.2 (by decide) rfl⟩

/-- C10: a failed `mutexLock` is not atomic with respect to priority
inheritance.  On a locked mutex whose owner has numerically greater priority
than the caller (boost not yet recorded), the boost is applied before the
availability check: with `waitTicks == 0` the call returns `RET_BUSY` with the
boosted state (`mutexBoost k`) as the entire effect — the owner's priority is
the caller's and `ownerDefaultPriority` is set — and on the wait path the
state in which the caller blocks (`mutexLockPending`) already carries the
boost; when the resumed state does not show `MUTEX_LOCKED`, the call returns
`RET_TIMEOUT` with that state unchanged, i.e. with no rollback of the boost
on either error path. -/
theorem mutexLock_no_rollback (k : Kernel) (ow : TaskId)
    (hlocked : k.mutex.locked = true)
    (howner : k.mutex.ownerTask = some ow)
    (hprio : (k.tasks k.currentTask).priority < (k.tasks ow).priority)
    (hsent : k.mutex.ownerDefaultPriority = -1) :
    (∀ env, mutexLock env k TASK_NO_WAIT = (RET_BUSY, mutexBoost k)) ∧
    ((mutexBoost k).tasks ow).priority = (k.tasks k.currentTask).priority ∧
    (mutexBoost k).mutex.ownerDefaultPriority = ((k.tasks ow).priority : Int) ∧
    (∀ ticks,
      ((mutexLockPending k ticks).tasks ow).priority = (k.tasks k.currentTask).priority ∧
      (mutexLockPending k ticks).mutex.ownerDefaultPriority = ((k.tasks ow).priority : Int)) ∧
    (∀ env ticks, ticks ≠ TASK_NO_WAIT →
      ((env (mutexLockPending k ticks)).tasks k.currentTask).wakeupReason ≠ MUTEX_LOCKED →
      mutexLock env k ticks = (RET_TIMEOUT, env (mutexLockPending k ticks))) := by
  obtain ⟨hb1, hb2, _, _⟩ := mutexBoost_boosts k ow howner hprio
  have hlocked1 : (mutexBoost k).mutex.locked = true :=
    ((mutexBoost_basic k).2.1).trans hlocked
  have hne : ow ≠ (mutexBoost k).currentTask := by
    rw [(mutexBoost_basic k).1]
    intro e
    rw [e] at hprio
    exact lt_irrefl _ hprio
  refine ⟨?_, hb1, hb2 hsent, ?_, ?_⟩
  · intro env
    unfold mutexLock mutexLockAvail
    rw [if_neg (by simp [hlocked1]), if_pos rfl]
  · intro ticks
    constructor
    · simp only [mutexLockPending, taskBlock]
      rw [scheduleNextTask_priority]
      simp only [updTask]
      rw [if_neg hne]
      exact hb1
    · simp only [mutexLockPending, taskBlock]
      rw [(scheduleNextTask_fields _).1]
      exact hb2 hsent
  · intro env ticks ht hw
    have hw1 : ((env (mutexLockPending k ticks)).tasks
        (mutexBoost k).currentTask).wakeupReason ≠ MUTEX_LOCKED := by
      rw [(mutexBoost_basic k).1]
      exact hw
    unfold mutexLock mutexLockAvail
    rw [if_neg (by simp [hlocked1]), if_neg ht]
    rw [if_neg (fun hand => hw1 hand.1)]
    rfl

/-- Witness for C10 at a concrete state: owner 2 (priority 200) holds the
mutex, current task 0 (priority 100) fails to lock it; the owner stays
boosted on both the busy and the timeout path. -/
theorem mutexLock_no_rollback_witness :
    mutexLock id sampleK3a TASK_NO_WAIT = (RET_BUSY, mutexBoost sampleK3a) ∧
    ((mutexBoost sampleK3a).tasks 2).priority = 100 ∧
    (mutexBoost sampleK3a).mutex.ownerDefaultPriority = 200 ∧
    ((mutexLockPending sampleK3a 5).tasks 2).priority = 100 ∧
    mutexLock id sampleK3a 5 = (RET_TIMEOUT, id (mutexLockPending sampleK3a 5)) := by
  obtain ⟨a, b, c, d, e⟩ := mutexLock_no_rollback sampleK3a 2 rfl rfl (by decide) rfl
  exact ⟨a id, b, c, (d 5).1, e id 5 (by decide) (by decide)⟩

/-- C5: `semaphoreGive` on a full semaphore (`count == maxCount`) returns
`RET_NOSEM` and changes nothing; otherwise it pops the head of the wait
queue: an existing waiter is set ready with `SEMAPHORE_TAKEN` and the count is
left unchanged (the unit transfers directly), else the count is incremented;
in the non-full case the call returns `RET_SUCCESS`. -/
theorem semaphoreGive_spec (k : Kernel) :
    (k.sem.count = k.sem.maxCount → semaphoreGive k = (RET_NOSEM, k)) ∧
    (k.sem.count ≠ k.sem.maxCount →
      (∀ w rest, k.sem.waitQueue = w :: rest →
        (semaphoreGive k).1 = RET_SUCCESS ∧
        (semaphoreGive k).2.sem.count = k.sem.count ∧
        ((semaphoreGive k).2.tasks w).status = TASK_STATUS_READY ∧
        ((semaphoreGive k).2.tasks w).wakeupReason = SEMAPHORE_TAKEN) ∧
      (k.sem.waitQueue = [] →
        semaphoreGive k = (RET_SUCCESS, { k with sem := { k.sem with count := k.sem.count + 1 } }))) := by
  constructor
  · intro h
    unfold semaphoreGive
    rw [if_neg (not_not_intro h)]
  · intro h
    constructor
    · intro w rest hwq
      unfold semaphoreGive
      rw [if_pos h]
      simp only [hwq]
      refine ⟨?_, ?_, ?_, ?_⟩
      · trivial
      · trivial
      · rw [(taskSetReady_facts _ w SEMAPHORE_TAKEN).2.2.2.1]
      · rw [(taskSetReady_facts _ w SEMAPHORE_TAKEN).2.2.2.1]
    · intro hwq
      unfold semaphoreGive
      rw [if_pos h]
      simp only [hwq]

/-- Witness for C5: full semaphore, semaphore with a waiter, and semaphore
without waiters, at concrete states. -/
theorem semaphoreGive_spec_witness :
    semaphoreGive { sampleK1 with sem := ⟨3, 3, []⟩ } =
      (RET_NOSEM, { sampleK1 with sem := ⟨3, 3, []⟩ }) ∧
    ((semaphoreGive sampleK5).1 = RET_SUCCESS ∧
      (semaphoreGive sampleK5).2.sem.count = 0 ∧
      ((semaphoreGive sampleK5).2.tasks 5).status = TASK_STATUS_READY ∧
      ((semaphoreGive sampleK5).2.tasks 5).wakeupReason = SEMAPHORE_TAKEN) ∧
    semaphoreGive sampleK1 =
      (RET_SUCCESS, { sampleK1 with sem := { sampleK1.sem with count := sampleK1.sem.count + 1 } }) :=
  ⟨(semaphoreGive_spec { sampleK1 with sem := ⟨3, 3, []⟩ }).1 rfl,
   ((semaphoreGive_spec sampleK5).2 (by decide)).1 5 [] rfl,
   ((semaphoreGive_spec sampleK1).2 (by decide)).2 rfl⟩

theorem checkTimeoutStep_tasks_ne (k : Kernel) (t j : TaskId) (hj : j ≠ t) :
    (checkTimeoutStep k t).tasks j = k.tasks j := by
  unfold checkTimeoutStep
  simp only
  split
  · split
    · split
      · rw [(taskSetReady_facts _ t SLEEP_TIME_TIMEOUT).2.2.2.2.1 j hj]
        simp [updTask, hj]
      · rw [(taskSetReady_facts _ t WAIT_TIMEOUT).2.2.2.2.1 j hj]
        simp [updTask, hj]
    · simp [updTask, hj]
  · rfl

theorem checkTimeoutAux_tasks_notmem (l : List TaskId) (k : Kernel) (t : TaskId)
    (h : t ∉ l) : (checkTimeoutAux l k).tasks t = k.tasks t := by
  induction l generalizing k with
  | nil => rfl
  | cons u rest ih =>
      have hut : t ≠ u := fun e => h (e ▸ List.mem_cons_self u rest)
      have hrest : t ∉ rest := fun hm => h (List.mem_cons_of_mem _ hm)
      rw [checkTimeoutAux]
      exact (ih _ hrest).trans (checkTimeoutStep_tasks_ne k u t hut)

theorem checkTimeoutAux_append (a b : List TaskId) (k : Kernel) :
    checkTimeoutAux (a ++ b) k = checkTimeoutAux b (checkTimeoutAux a k) := by
  induction a generalizing k with
  | nil => rfl
  | cons u rest ih => simp [checkTimeoutAux, ih]

theorem checkTimeoutStep_zero (k : Kernel) (t : TaskId)
    (h : (k.tasks t).remainingSleepTicks = 0) : checkTimeoutStep k t = k := by
  unfold checkTimeoutStep
  rw [if_neg (by simp [h])]

theorem checkTimeoutStep_dec (k : Kernel) (t : TaskId) (n : Nat)
    (h : (k.tasks t).remainingSleepTicks = n + 2) :
    (checkTimeoutStep k t).tasks t = { k.tasks t with remainingSleepTicks := n + 1 } := by
  simp only [checkTimeoutStep, h]
  rw [if_pos (by simp), if_neg (by simp)]
  simp [updTask]

theorem checkTimeoutStep_fire (k : Kernel) (t : TaskId)
    (h : (k.tasks t).remainingSleepTicks = 1) :
    ((checkTimeoutStep k t).tasks t).status = TASK_STATUS_READY ∧
    ((checkTimeoutStep k t).tasks t).remainingSleepTicks = 0 ∧
    ((k.tasks t).blockedReason = SLEEP →
      ((checkTimeoutStep k t).tasks t).wakeupReason = SLEEP_TIME_TIMEOUT) ∧
    ((k.tasks t).blockedReason ≠ SLEEP →
      ((checkTimeoutStep k t).tasks t).wakeupReason = WAIT_TIMEOUT) := by
  simp only [checkTimeoutStep, h]
  rw [if_pos (by simp), if_pos (by simp)]
  by_cases hbr : (k.tasks t).blockedReason = SLEEP
  · rw [if_pos hbr, (taskSetReady_facts _ t SLEEP_TIME_TIMEOUT).2.2.2.1]
    exact ⟨rfl, rfl, fun _ => rfl, fun hn => absurd hbr hn⟩
  · rw [if_neg hbr, (taskSetReady_facts _ t WAIT_TIMEOUT).2.2.2.1]
    exact ⟨rfl, rfl, fun hy => absurd hy hbr, fun _ => rfl⟩

/-- C6: on a tick, `checkTimeout` decrements the counter of every task on the
blocked-timeout list with `remainingSleepTicks > 0`; a counter that reaches 0
sets the task ready with `SLEEP_TIME_TIMEOUT` when its block reason is SLEEP
and `WAIT_TIMEOUT` otherwise; a task on the list with
`remainingSleepTicks == 0` (blocked with no timeout) is left untouched. -/
theorem checkTimeout_spec (k : Kernel) (t : TaskId)
    (hmem : t ∈ k.blockedQueue) (hnodup : k.blockedQueue.Nodup) :
    ((k.tasks t).remainingSleepTicks = 0 → (checkTimeout k).tasks t = k.tasks t) ∧
    (∀ n, (k.tasks t).remainingSleepTicks = n + 2 →
      (checkTimeout k).tasks t = { k.tasks t with remainingSleepTicks := n + 1 }) ∧
    ((k.tasks t).remainingSleepTicks = 1 →
      ((checkTimeout k).tasks t).status = TASK_STATUS_READY ∧
      ((checkTimeout k).tasks t).remainingSleepTicks = 0 ∧
      ((k.tasks t).blockedReason = SLEEP →
        ((checkTimeout k).tasks t).wakeupReason = SLEEP_TIME_TIMEOUT) ∧
      ((k.tasks t).blockedReason ≠ SLEEP →
        ((checkTimeout k).tasks t).wakeupReason = WAIT_TIMEOUT)) := by
  obtain ⟨l1, l2, hsplit⟩ := List.append_of_mem hmem
  have hnd : (l1 ++ t :: l2).Nodup := hsplit ▸ hnodup
  obtain ⟨hnd1, hnd2, hdisj⟩ := List.nodup_append.mp hnd
  have ht1 : t ∉ l1 := fun hm => hdisj hm (List.mem_cons_self _ _)
  have ht2 : t ∉ l2 := (List.nodup_cons.mp hnd2).1
  have key : (checkTimeout k).tasks t =
      (checkTimeoutStep (checkTimeoutAux l1 k) t).tasks t := by
    unfold checkTimeout
    rw [hsplit, checkTimeoutAux_append, checkTimeoutAux]
    exact checkTimeoutAux_tasks_notmem l2 _ t ht2
  have hbase : (checkTimeoutAux l1 k).tasks t = k.tasks t :=
    checkTimeoutAux_tasks_notmem l1 k t ht1
  refine ⟨?_, ?_, ?_⟩
  · intro h0
    rw [key, checkTimeoutStep_zero _ t (by rw [hbase]; exact h0)]
    exact hbase
  · intro n hn
    rw [key, checkTimeoutStep_dec _ t n (by rw [hbase]; exact hn), hbase]
  · intro h1
    have hf := checkTimeoutStep_fire (checkTimeoutAux l1 k) t (by rw [hbase]; exact h1)
    rw [key]
    exact ⟨hf.1, hf.2.1,
      fun hbr => hf.2.2.1 (by rw [hbase]; exact hbr),
      fun hbr => hf.2.2.2 (by rw [hbase]; exact hbr)⟩

/-- Witness for C6: one tick on the concrete blocked list leaves the
no-timeout task untouched, decrements the 2-tick task, and wakes the sleeping
1-tick task with `SLEEP_TIME_TIMEOUT`. -/
theorem checkTimeout_spec_witness :
    (checkTimeout sampleK6).tasks 6 = sampleK6.tasks 6 ∧
    (checkTimeout sampleK6).tasks 4 = { sampleK6.tasks 4 with remainingSleepTicks := 1 } ∧
    ((checkTimeout sampleK6).tasks 3).status = TASK_STATUS_READY ∧
    ((checkTimeout sampleK6).tasks 3).wakeupReason = SLEEP_TIME_TIMEOUT :=
  ⟨(checkTimeout_spec sampleK6 6 (by decide) (by decide)).1 rfl,
   (checkTimeout_spec sampleK6 4 (by decide) (by decide)).2.1 0 rfl,
   ((checkTimeout_spec sampleK6 3 (by decide) (by decide)).2.2 rfl).1,
   ((checkTimeout_spec sampleK6 3 (by decide) (by decide)).2.2 rfl).2.2.1 rfl⟩

theorem timerStop_basic (k : Kernel) (i : TimerId) :
    (timerStop k i).tasks = k.tasks ∧
    (timerStop k i).timerTaskId = k.timerTaskId ∧
    (timerStop k i).timeoutHandlerQueue = k.timeoutHandlerQueue ∧
    (timerStop k i).timerList.Sublist k.timerList ∧
    (∀ j, j ≠ i → (timerStop k i).timers j = k.timers j) := by
  unfold timerStop
  split
  · exact ⟨rfl, rfl, rfl, List.erase_sublist _ _, fun j hj => by simp [hj]⟩
  · exact ⟨rfl, rfl, rfl, List.Sublist.refl _, fun j hj => rfl⟩

theorem if_self_eq {α : Sort u} (x : Nat) (a b : α) : (if x = x then a else b) = a :=
  if_pos rfl

theorem taskSetReady_timers (k : Kernel) (t : TaskId) (wr : WakeupReason) :
    (taskSetReady k t wr).timers = k.timers := rfl

theorem taskSetReady_timerList (k : Kernel) (t : TaskId) (wr : WakeupReason) :
    (taskSetReady k t wr).timerList = k.timerList := rfl

theorem taskSetReady_thq (k : Kernel) (t : TaskId) (wr : WakeupReason) :
    (taskSetReady k t wr).timeoutHandlerQueue = k.timeoutHandlerQueue := rfl

theorem taskSetReady_timerTaskId (k : Kernel) (t : TaskId) (wr : WakeupReason) :
    (taskSetReady k t wr).timerTaskId = k.timerTaskId := rfl

theorem processTimerFire_basic (k : Kernel) (i : TimerId) :
    (processTimerFire k i).timerTaskId = k.timerTaskId ∧
    (processTimerFire k i).timeoutHandlerQueue =
      k.timeoutHandlerQueue ++ [(k.timers i).handler] ∧
    (processTimerFire k i).timerList.Sublist k.timerList ∧
    (∀ j, j ≠ i → (processTimerFire k i).timers j = k.timers j) := by
  unfold processTimerFire
  simp only
  by_cases hbl : (k.tasks k.timerTaskId).status = TASK_STATUS_BLOCKED
  · rw [if_pos hbl]
    simp only [taskSetReady_timers, taskSetReady_timerList, taskSetReady_thq,
      taskSetReady_timerTaskId, if_self_eq, if_true]
    by_cases hm : (k.timers i).mode = TIMER_MODE_SINGLE_SHOT
    · rw [if_pos hm]
      refine ⟨(timerStop_basic _ i).2.1, (timerStop_basic _ i).2.2.1,
        (timerStop_basic _ i).2.2.2.1, ?_⟩
      intro j hj
      rw [(timerStop_basic _ i).2.2.2.2 j hj]
      simp [hj]
    · rw [if_neg hm]
      refine ⟨rfl, rfl, List.Sublist.refl _, ?_⟩
      intro j hj
      simp [hj]
  · rw [if_neg hbl]
    simp only [if_self_eq, if_true]
    by_cases hm : (k.timers i).mode = TIMER_MODE_SINGLE_SHOT
    · rw [if_pos hm]
      refine ⟨(timerStop_basic _ i).2.1, (timerStop_basic _ i).2.2.1,
        (timerStop_basic _ i).2.2.2.1, ?_⟩
      intro j hj
      rw [(timerStop_basic _ i).2.2.2.2 j hj]
      simp [hj]
    · rw [if_neg hm]
      refine ⟨rfl, rfl, List.Sublist.refl _, ?_⟩
      intro j hj
      simp [hj]

theorem processTimerFire_tasks_notblocked (k : Kernel) (i : TimerId)
    (h : (k.tasks k.timerTaskId).status ≠ TASK_STATUS_BLOCKED) :
    (processTimerFire k i).tasks = k.tasks := by
  unfold processTimerFire
  simp only
  rw [if_neg h]
  simp only [if_self_eq, if_true]
  by_cases hm : (k.timers i).mode = TIMER_MODE_SINGLE_SHOT
  · rw [if_pos hm, (timerStop_basic _ i).1]
  · rw [if_neg hm]

theorem processTimerFire_tasks_blocked (k : Kernel) (i : TimerId)
    (h : (k.tasks k.timerTaskId).status = TASK_STATUS_BLOCKED) :
    ((processTimerFire k i).tasks k.timerTaskId).status = TASK_STATUS_READY ∧
    ((processTimerFire k i).tasks k.timerTaskId).wakeupReason = TIMER_TIMEOUT := by
  unfold processTimerFire
  simp only
  rw [if_pos h]
  simp only [taskSetReady_timers, if_self_eq, if_true]
  by_cases hm : (k.timers i).mode = TIMER_MODE_SINGLE_SHOT
  · rw [if_pos hm, (timerStop_basic _ i).1]
    constructor
    · rw [(taskSetReady_facts _ _ TIMER_TIMEOUT).2.2.2.1]
    · rw [(taskSetReady_facts _ _ TIMER_TIMEOUT).2.2.2.1]
  · rw [if_neg hm]
    constructor
    · rw [(taskSetReady_facts _ _ TIMER_TIMEOUT).2.2.2.1]
    · rw [(taskSetReady_facts _ _ TIMER_TIMEOUT).2.2.2.1]

theorem processTimerFire_periodic (k : Kernel) (i : TimerId)
    (hm : (k.timers i).mode = TIMER_MODE_PERIODIC) :
    (processTimerFire k i).timers i =
      { k.timers i with ticksToExpire := (k.timers i).intervalTicks } ∧
    (processTimerFire k i).timerList = k.timerList := by
  have hm1 : (k.timers i).mode ≠ TIMER_MODE_SINGLE_SHOT := by
    rw [hm]
    decide
  unfold processTimerFire
  simp only
  by_cases hbl : (k.tasks k.timerTaskId).status = TASK_STATUS_BLOCKED
  · rw [if_pos hbl]
    simp only [taskSetReady_timers, taskSetReady_timerList, if_self_eq, if_true]
    rw [if_neg hm1]
    exact ⟨by simp [if_self_eq], rfl⟩
  · rw [if_neg hbl]
    simp only [if_self_eq, if_true]
    rw [if_neg hm1]
    exact ⟨by simp [if_self_eq], rfl⟩

theorem processTimerFire_single_shot (k : Kernel) (i : TimerId)
    (hm : (k.timers i).mode = TIMER_MODE_SINGLE_SHOT)
    (hrun : (k.timers i).isRunning = true) :
    ((processTimerFire k i).timers i).isRunning = false ∧
    (processTimerFire k i).timerList = k.timerList.erase i := by
  unfold processTimerFire
  simp only
  by_cases hbl : (k.tasks k.timerTaskId).status = TASK_STATUS_BLOCKED
  · rw [if_pos hbl]
    simp only [taskSetReady_timers, taskSetReady_timerList, if_self_eq, if_true]
    rw [if_pos hm]
    unfold timerStop
    simp only [if_self_eq, if_true]
    rw [if_pos hrun]
    exact ⟨by simp [if_self_eq], rfl⟩
  · rw [if_neg hbl]
    simp only [if_self_eq, if_true]
    rw [if_pos hm]
    unfold timerStop
    simp only [if_self_eq, if_true]
    rw [if_pos hrun]
    exact ⟨by simp [if_self_eq], rfl⟩

theorem processTimerStep_dec (k : Kernel) (i : TimerId) (n : Nat)
    (h : (k.timers i).ticksToExpire = n + 2) :
    (processTimerStep k i).timers i = { k.timers i with ticksToExpire := n + 1 } ∧
    (processTimerStep k i).timerList = k.timerList ∧
    (processTimerStep k i).timeoutHandlerQueue = k.timeoutHandlerQueue ∧
    (processTimerStep k i).tasks = k.tasks ∧
    (processTimerStep k i).timerTaskId = k.timerTaskId := by
  have h' : (k.timers i).ticksToExpire = n + 1 + 1 := by omega
  unfold processTimerStep
  simp only [h', if_self_eq, if_true]
  rw [if_pos (Nat.succ_pos _), if_neg ?hcond]
  case hcond =>
    simp [Nat.add_sub_cancel]
  refine ⟨?_, rfl, rfl, rfl, rfl⟩
  simp [if_self_eq, Nat.add_sub_cancel]

theorem processTimerStep_fire_eq (k : Kernel) (i : TimerId)
    (h : (k.timers i).ticksToExpire = 1) :
    processTimerStep k i =
      processTimerFire
        { k with timers := fun j =>
            if j = i then { k.timers i with ticksToExpire := 0 } else k.timers j } i := by
  unfold processTimerStep
  simp only [h, if_self_eq, if_true]
  norm_num

theorem processTimerStep_fire_facts (k : Kernel) (i : TimerId)
    (h : (k.timers i).ticksToExpire = 1) :
    (processTimerStep k i).timeoutHandlerQueue =
      k.timeoutHandlerQueue ++ [(k.timers i).handler] ∧
    ((k.tasks k.timerTaskId).status = TASK_STATUS_BLOCKED →
      ((processTimerStep k i).tasks k.timerTaskId).status = TASK_STATUS_READY ∧
      ((processTimerStep k i).tasks k.timerTaskId).wakeupReason = TIMER_TIMEOUT) ∧
    ((k.timers i).mode = TIMER_MODE_PERIODIC →
      (processTimerStep k i).timers i =
        { k.timers i with ticksToExpire := (k.timers i).intervalTicks } ∧
      (processTimerStep k i).timerList = k.timerList) ∧
    ((k.timers i).mode = TIMER_MODE_SINGLE_SHOT → (k.timers i).isRunning = true →
      ((processTimerStep k i).timers i).isRunning = false ∧
      (processTimerStep k i).timerList = k.timerList.erase i) := by
  rw [processTimerStep_fire_eq k i h]
  refine ⟨?_, ?_, ?_, ?_⟩
  · rw [(processTimerFire_basic _ i).2.1]
    simp [if_self_eq]
  · intro hb
    exact processTimerFire_tasks_blocked _ i hb
  · intro hm
    have hp := processTimerFire_periodic
      { k with timers := fun j =>
          if j = i then { k.timers i with ticksToExpire := 0 } else k.timers j } i
      (by simp [if_self_eq]; exact hm)
    constructor
    · rw [hp.1]
      simp [if_self_eq]
    · exact hp.2
  · intro hm hrun
    have hs := processTimerFire_single_shot
      { k with timers := fun j =>
          if j = i then { k.timers i with ticksToExpire := 0 } else k.timers j } i
      (by simp [if_self_eq]; exact hm) (by simp [if_self_eq]; exact hrun)
    exact ⟨hs.1, hs.2⟩

theorem processTimerStep_pres (k : Kernel) (i : TimerId) :
    (processTimerStep k i).timerTaskId = k.timerTaskId ∧
    (processTimerStep k i).timerList.Sublist k.timerList ∧
    (∀ x, x ∈ k.timeoutHandlerQueue → x ∈ (processTimerStep k i).timeoutHandlerQueue) ∧
    (∀ j, j ≠ i → (processTimerStep k i).timers j = k.timers j) := by
  unfold processTimerStep
  simp only [if_self_eq, if_true]
  split <;> (try split) <;>
    first
      | exact ⟨(processTimerFire_basic _ i).1, (processTimerFire_basic _ i).2.2.1,
          fun x hx => by
            rw [(processTimerFire_basic _ i).2.1]
            exact List.mem_append_left _ hx,
          fun j hj => by
            rw [(processTimerFire_basic _ i).2.2.2 j hj]
            simp [hj]⟩
      | exact ⟨rfl, List.Sublist.refl _, fun x hx => hx, fun j hj => by simp [hj]⟩

theorem processTimerFire_mem_timerList (k : Kernel) (i j : TimerId) (hne : j ≠ i)
    (hm : j ∈ k.timerList) : j ∈ (processTimerFire k i).timerList := by
  unfold processTimerFire
  simp only [if_self_eq, if_true]
  by_cases hbl : (k.tasks k.timerTaskId).status = TASK_STATUS_BLOCKED
  · rw [if_pos hbl]
    simp only [taskSetReady_timers, taskSetReady_timerList, if_self_eq, if_true]
    split
    · unfold timerStop
      split
      · exact List.mem_erase_of_ne hne |>.mpr hm
      · exact hm
    · exact hm
  · rw [if_neg hbl]
    simp only [if_self_eq, if_true]
    split
    · unfold timerStop
      split
      · exact List.mem_erase_of_ne hne |>.mpr hm
      · exact hm
    · exact hm

theorem processTimerStep_mem_timerList (k : Kernel) (i j : TimerId) (hne : j ≠ i)
    (hm : j ∈ k.timerList) : j ∈ (processTimerStep k i).timerList := by
  unfold processTimerStep
  simp only [if_self_eq, if_true]
  split <;> (try split) <;>
    first
      | exact processTimerFire_mem_timerList _ i j hne hm
      | exact hm

theorem processTimerFire_task_case (K : Kernel) (i : TimerId) :
    ((K.tasks K.timerTaskId).status = TASK_STATUS_READY ∧
      (K.tasks K.timerTaskId).wakeupReason = TIMER_TIMEOUT →
      ((processTimerFire K i).tasks K.timerTaskId).status = TASK_STATUS_READY ∧
      ((processTimerFire K i).tasks K.timerTaskId).wakeupReason = TIMER_TIMEOUT) ∧
    ((K.tasks K.timerTaskId).status = TASK_STATUS_BLOCKED →
      ((processTimerFire K i).tasks K.timerTaskId).status = TASK_STATUS_BLOCKED ∨
        (((processTimerFire K i).tasks K.timerTaskId).status = TASK_STATUS_READY ∧
          ((processTimerFire K i).tasks K.timerTaskId).wakeupReason = TIMER_TIMEOUT)) := by
  constructor
  · intro hyp
    rw [processTimerFire_tasks_notblocked K i
      (fun e => TaskStatus.noConfusion (hyp.1.symm.trans e))]
    exact hyp
  · intro hb
    exact Or.inr (processTimerFire_tasks_blocked K i hb)

theorem processTimerStep_task (k : Kernel) (i : TimerId) :
    (((k.tasks k.timerTaskId).status = TASK_STATUS_READY ∧
        (k.tasks k.timerTaskId).wakeupReason = TIMER_TIMEOUT) →
      ((processTimerStep k i).tasks k.timerTaskId).status = TASK_STATUS_READY ∧
      ((processTimerStep k i).tasks k.timerTaskId).wakeupReason = TIMER_TIMEOUT) ∧
    ((k.tasks k.timerTaskId).status = TASK_STATUS_BLOCKED →
      ((processTimerStep k i).tasks k.timerTaskId).status = TASK_STATUS_BLOCKED ∨
        (((processTimerStep k i).tasks k.timerTaskId).status = TASK_STATUS_READY ∧
          ((processTimerStep k i).tasks k.timerTaskId).wakeupReason = TIMER_TIMEOUT)) := by
  unfold processTimerStep
  simp only [if_self_eq, if_true]
  split <;> (try split) <;>
    first
      | exact processTimerFire_task_case
          { k with timers := fun j =>
              if j = i then
                { k.timers i with ticksToExpire := (k.timers i).ticksToExpire - 1 }
              else k.timers j } i
      | exact processTimerFire_task_case
          { k with timers := fun j => if j = i then k.timers i else k.timers j } i
      | exact ⟨fun hyp => hyp, fun hb => Or.inl hb⟩

theorem processTimersAux_timerTaskId (l : List TimerId) (k : Kernel) :
    (processTimersAux l k).timerTaskId = k.timerTaskId := by
  induction l generalizing k with
  | nil => rfl
  | cons i rest ih =>
      rw [processTimersAux]
      exact (ih _).trans (processTimerStep_pres k i).1

theorem processTimersAux_sublist (l : List TimerId) (k : Kernel) :
    (processTimersAux l k).timerList.Sublist k.timerList := by
  induction l generalizing k with
  | nil => exact List.Sublist.refl _
  | cons i rest ih =>
      rw [processTimersAux]
      exact (ih _).trans (processTimerStep_pres k i).2.1

theorem processTimersAux_thq_mono (l : List TimerId) (k : Kernel) (x : Nat)
    (hx : x ∈ k.timeoutHandlerQueue) : x ∈ (processTimersAux l k).timeoutHandlerQueue := by
  induction l generalizing k with
  | nil => exact hx
  | cons i rest ih =>
      rw [processTimersAux]
      exact ih _ ((processTimerStep_pres k i).2.2.1 x hx)

theorem processTimersAux_timers_notmem (l : List TimerId) (k : Kernel) (i : TimerId)
    (h : i ∉ l) : (processTimersAux l k).timers i = k.timers i := by
  induction l generalizing k with
  | nil => rfl
  | cons u rest ih =>
      have hui : i ≠ u := fun e => h (e ▸ List.mem_cons_self u rest)
      have hrest : i ∉ rest := fun hm => h (List.mem_cons_of_mem _ hm)
      rw [processTimersAux]
      exact (ih _ hrest).trans ((processTimerStep_pres k u).2.2.2 i hui)

theorem processTimersAux_mem_timerList (l : List TimerId) (k : Kernel) (i : TimerId)
    (hm : i ∈ k.timerList) (h : i ∉ l) : i ∈ (processTimersAux l k).timerList := by
  induction l generalizing k with
  | nil => exact hm
  | cons u rest ih =>
      have hui : i ≠ u := fun e => h (e ▸ List.mem_cons_self u rest)
      have hrest : i ∉ rest := fun hmm => h (List.mem_cons_of_mem _ hmm)
      rw [processTimersAux]
      exact ih _ (processTimerStep_mem_timerList k u i hui hm) hrest

theorem processTimersAux_notmem_timerList (l : List TimerId) (k : Kernel) (i : TimerId)
    (hm : i ∉ k.timerList) : i ∉ (processTimersAux l k).timerList :=
  fun hc => hm ((processTimersAux_sublist l k).subset hc)

theorem processTimersAux_task_ready (l : List TimerId) (k : Kernel)
    (h : (k.tasks k.timerTaskId).status = TASK_STATUS_READY ∧
      (k.tasks k.timerTaskId).wakeupReason = TIMER_TIMEOUT) :
    ((processTimersAux l k).tasks k.timerTaskId).status = TASK_STATUS_READY ∧
    ((processTimersAux l k).tasks k.timerTaskId).wakeupReason = TIMER_TIMEOUT := by
  induction l generalizing k with
  | nil => exact h
  | cons i rest ih =>
      rw [processTimersAux]
      have hid := (processTimerStep_pres k i).1
      have hstep := (processTimerStep_task k i).1 h
      have hrec := ih (processTimerStep k i) (by rw [hid]; exact hstep)
      rw [hid] at hrec
      exact hrec

theorem processTimersAux_task_blocked (l : List TimerId) (k : Kernel)
    (h : (k.tasks k.timerTaskId).status = TASK_STATUS_BLOCKED) :
    ((processTimersAux l k).tasks k.timerTaskId).status = TASK_STATUS_BLOCKED ∨
      (((processTimersAux l k).tasks k.timerTaskId).status = TASK_STATUS_READY ∧
        ((processTimersAux l k).tasks k.timerTaskId).wakeupReason = TIMER_TIMEOUT) := by
  induction l generalizing k with
  | nil => exact Or.inl h
  | cons i rest ih =>
      rw [processTimersAux]
      have hid := (processTimerStep_pres k i).1
      rcases (processTimerStep_task k i).2 h with hb | hr
      · have hrec := ih (processTimerStep k i) (by rw [hid]; exact hb)
        rw [hid] at hrec
        exact hrec
      · have hrec := processTimersAux_task_ready rest (processTimerStep k i)
          (by rw [hid]; exact hr)
        rw [hid] at hrec
        exact Or.inr hrec

theorem processTimersAux_append (a b : List TimerId) (k : Kernel) :
    processTimersAux (a ++ b) k = processTimersAux b (processTimersAux a k) := by
  induction a generalizing k with
  | nil => rfl
  | cons u rest ih => simp [processTimersAux, ih]

/-- C9: on each tick, for a running timer `i` in `timerList`: a positive
`ticksToExpire` is decremented; when it reaches 0, the timer's handler is
pushed onto `timeoutHandlerQueue`, the timer task is set ready with
`TIMER_TIMEOUT` if it is BLOCKED, `ticksToExpire` is reloaded to
`intervalTicks` when the mode is PERIODIC, and the timer is stopped
(`isRunning` cleared and unlinked from `timerList`) when the mode is
SINGLE_SHOT. -/
theorem processTimers_spec (k : Kernel) (i : TimerId)
    (hmem : i ∈ k.timerList) (hnodup : k.timerList.Nodup)
    (hrun : (k.timers i).isRunning = true) :
    (∀ n, (k.timers i).ticksToExpire = n + 2 →
      (processTimers k).timers i = { k.timers i with ticksToExpire := n + 1 }) ∧
    ((k.timers i).ticksToExpire = 1 →
      (k.timers i).handler ∈ (processTimers k).timeoutHandlerQueue ∧
      ((k.tasks k.timerTaskId).status = TASK_STATUS_BLOCKED →
        ((processTimers k).tasks k.timerTaskId).status = TASK_STATUS_READY ∧
        ((processTimers k).tasks k.timerTaskId).wakeupReason = TIMER_TIMEOUT) ∧
      ((k.timers i).mode = TIMER_MODE_PERIODIC →
        (processTimers k).timers i =
          { k.timers i with ticksToExpire := (k.timers i).intervalTicks } ∧
        i ∈ (processTimers k).timerList) ∧
      ((k.timers i).mode = TIMER_MODE_SINGLE_SHOT →
        ((processTimers k).timers i).isRunning = false ∧
        i ∉ (processTimers k).timerList)) := by
  obtain ⟨l1, l2, hsplit⟩ := List.append_of_mem hmem
  have hnd : (l1 ++ i :: l2).Nodup := hsplit ▸ hnodup
  obtain ⟨hnd1, hnd2, hdisj⟩ := List.nodup_append.mp hnd
  have hi1 : i ∉ l1 := fun hm => hdisj hm (List.mem_cons_self _ _)
  have hi2 : i ∉ l2 := (List.nodup_cons.mp hnd2).1
  have hkey : processTimers k =
      processTimersAux l2 (processTimerStep (processTimersAux l1 k) i) := by
    unfold processTimers
    rw [hsplit, processTimersAux_append, processTimersAux]
  have htimers1 : (processTimersAux l1 k).timers i = k.timers i :=
    processTimersAux_timers_notmem l1 k i hi1
  have hid1 : (processTimersAux l1 k).timerTaskId = k.timerTaskId :=
    processTimersAux_timerTaskId l1 k
  have hid2 : (processTimerStep (processTimersAux l1 k) i).timerTaskId = k.timerTaskId :=
    (processTimerStep_pres _ i).1.trans hid1
  constructor
  · intro n hn
    have hd := processTimerStep_dec (processTimersAux l1 k) i n (by rw [htimers1]; exact hn)
    rw [hkey, processTimersAux_timers_notmem l2 _ i hi2, hd.1, htimers1]
  · intro h1
    have h1' : ((processTimersAux l1 k).timers i).ticksToExpire = 1 := by
      rw [htimers1]; exact h1
    obtain ⟨ha, hb, hc, hd⟩ := processTimerStep_fire_facts (processTimersAux l1 k) i h1'
    refine ⟨?_, ?_, ?_, ?_⟩
    · rw [hkey]
      apply processTimersAux_thq_mono
      rw [ha, htimers1]
      exact List.mem_append_right _ (List.mem_singleton_self _)
    · intro hbl
      have hstep : ((processTimerStep (processTimersAux l1 k) i).tasks
            k.timerTaskId).status = TASK_STATUS_READY ∧
          ((processTimerStep (processTimersAux l1 k) i).tasks
            k.timerTaskId).wakeupReason = TIMER_TIMEOUT := by
        rcases processTimersAux_task_blocked l1 k hbl with hb1 | hr1
        · have hx := hb (by rw [hid1]; exact hb1)
          rw [hid1] at hx
          exact hx
        · have hx := (processTimerStep_task (processTimersAux l1 k) i).1
            (by rw [hid1]; exact hr1)
          rw [hid1] at hx
          exact hx
      have hfin := processTimersAux_task_ready l2
        (processTimerStep (processTimersAux l1 k) i) (by rw [hid2]; exact hstep)
      rw [hid2] at hfin
      rw [hkey]
      exact hfin
    · intro hm
      have hp := hc (by rw [htimers1]; exact hm)
      constructor
      · rw [hkey, processTimersAux_timers_notmem l2 _ i hi2, hp.1, htimers1]
      · rw [hkey]
        refine processTimersAux_mem_timerList l2 _ i ?_ hi2
        rw [hp.2]
        exact processTimersAux_mem_timerList l1 k i hmem hi1
    · intro hm
      have hs := hd (by rw [htimers1]; exact hm) (by rw [htimers1]; exact hrun)
      constructor
      · rw [hkey, processTimersAux_timers_notmem l2 _ i hi2]
        exact hs.1
      · rw [hkey]
        apply processTimersAux_notmem_timerList l2 _ i
        rw [hs.2]
        have hndk1 : (processTimersAux l1 k).timerList.Nodup :=
          (processTimersAux_sublist l1 k).nodup hnodup
        intro hc2
        exact ((List.Nodup.mem_erase_iff hndk1).mp hc2).1 rfl

/-- Witness for C9 on one concrete tick: the 3-tick timer decrements, the
single-shot timer fires and stops, the periodic timer fires and reloads, and
the blocked timer task is readied with `TIMER_TIMEOUT`. -/
theorem processTimers_spec_witness :
    (processTimers sampleK9).timers 10 = { sampleK9.timers 10 with ticksToExpire := 2 } ∧
    (42 ∈ (processTimers sampleK9).timeoutHandlerQueue ∧
      ((processTimers sampleK9).timers 7).isRunning = false ∧
      7 ∉ (processTimers sampleK9).timerList) ∧
    ((processTimers sampleK9).timers 8 = { sampleK9.timers 8 with ticksToExpire := 5 } ∧
      8 ∈ (processTimers sampleK9).timerList) ∧
    ((processTimers sampleK9).tasks 9).status = TASK_STATUS_READY ∧
    ((processTimers sampleK9).tasks 9).wakeupReason = TIMER_TIMEOUT := by
  have h10 := (processTimers_spec sampleK9 10 (by decide) (by decide) rfl).1 1 rfl
  obtain ⟨h7a, _, _, h7d⟩ := (processTimers_spec sampleK9 7 (by decide) (by decide) rfl).2 rfl
  obtain ⟨_, h8b, h8c, _⟩ := (processTimers_spec sampleK9 8 (by decide) (by decide) rfl).2 rfl
  have h7s := h7d rfl
  have h8p := h8c rfl
  have h8t := h8b rfl
  exact ⟨h10, ⟨h7a, h7s.1, h7s.2⟩, ⟨h8p.1, h8p.2⟩, h8t.1, h8t.2⟩

theorem scheduleNextTask_tcb_notin (k : Kernel) (t : TaskId)
    (hnotin : t ∉ k.readyQueue)
    (hns : (k.tasks k.currentTask).status ≠ TASK_STATUS_RUNNING) :
    (scheduleNextTask k).tasks t = k.tasks t := by
  unfold scheduleNextTask
  cases hq : k.readyQueue with
  | nil => rfl
  | cons h rest =>
      simp only
      rw [if_neg hns]
      unfold schedulePop
      rw [hq]
      have hth : t ≠ h := fun e => hnotin (by rw [hq, e]; exact List.mem_cons_self _ _)
      simp [updTask, hth]

theorem mutexUnlock_release_eq (k : Kernel)
    (howner : k.mutex.ownerTask = some k.currentTask)
    (hlocked : k.mutex.locked = true)
    (hwq : k.mutex.waitQueue = [])
    (hsent : k.mutex.ownerDefaultPriority = -1) :
    mutexUnlock k =
      (RET_SUCCESS, { k with mutex := { k.mutex with ownerTask := none, locked := false } }) := by
  unfold mutexUnlock
  rw [if_pos howner, if_pos hlocked]
  simp only [mutexRestore_id k hsent, hwq]

/-- C8: `condVarWait` with a valid associated mutex (held by the caller)
unlocks the mutex, enqueues the caller on the condition variable's wait
queue, blocks it with `WAIT_FOR_COND_VAR`, re-acquires the mutex with
`TASK_MAX_WAIT` on resume, and returns `true` iff the caller's wakeup reason
as observed after the re-acquisition is not `WAIT_TIMEOUT`. -/
theorem condVarWait_spec (k : Kernel) (env envLock : Kernel → Kernel) (waitTicks : Nat)
    (hvalid : k.condVarMutexValid = true)
    (howner : k.mutex.ownerTask = some k.currentTask)
    (hlocked : k.mutex.locked = true)
    (hwq : k.mutex.waitQueue = [])
    (hsent : k.mutex.ownerDefaultPriority = -1)
    (hnotin : k.currentTask ∉ k.readyQueue) :
    ((condVarWaitPending k waitTicks).mutex.locked = false ∧
      (condVarWaitPending k waitTicks).mutex.ownerTask = none) ∧
    k.currentTask ∈ (condVarWaitPending k waitTicks).condVarQueue ∧
    (((condVarWaitPending k waitTicks).tasks k.currentTask).status = TASK_STATUS_BLOCKED ∧
      ((condVarWaitPending k waitTicks).tasks k.currentTask).blockedReason = WAIT_FOR_COND_VAR ∧
      ((condVarWaitPending k waitTicks).tasks k.currentTask).remainingSleepTicks =
        (if waitTicks = TASK_MAX_WAIT then 0 else waitTicks)) ∧
    (condVarWait env envLock k waitTicks).2 =
      (mutexLock envLock (env (condVarWaitPending k waitTicks)) TASK_MAX_WAIT).2 ∧
    ((condVarWait env envLock k waitTicks).1 = true ↔
      ((condVarWait env envLock k waitTicks).2.tasks k.currentTask).wakeupReason ≠
        WAIT_TIMEOUT) := by
  have hrel := mutexUnlock_release_eq k howner hlocked hwq hsent
  refine ⟨?_, ?_, ?_, ?_, ?_⟩
  · simp only [condVarWaitPending, taskBlock, hrel]
    rw [(scheduleNextTask_fields _).1]
    exact ⟨rfl, rfl⟩
  · simp only [condVarWaitPending, taskBlock, hrel]
    rw [(scheduleNextTask_fields _).2.2.2.1]
    exact mem_taskQueueAdd_self _ _ _
  · simp only [condVarWaitPending, taskBlock, hrel]
    rw [scheduleNextTask_tcb_notin _ _ ?h1 ?h2]
    case h1 => exact hnotin
    case h2 => simp [updTask]
    simp [updTask]
  · unfold condVarWait
    rw [if_neg (by simp [hvalid])]
    simp only
    split
    · rfl
    · rfl
  · unfold condVarWait
    rw [if_neg (by simp [hvalid])]
    simp only
    split
    · next hwt => simp [hwt]
    · next hwt => simp [hwt]

/-- Witness for C8 at a concrete state with trivial environments: the
pending state has the mutex released and the caller blocked on the condition
variable, and the call returns true because the observed wakeup reason is not
`WAIT_TIMEOUT`. -/
theorem condVarWait_spec_witness :
    (condVarWaitPending sampleK8 3).mutex.locked = false ∧
    0 ∈ (condVarWaitPending sampleK8 3).condVarQueue ∧
    ((condVarWaitPending sampleK8 3).tasks 0).blockedReason = WAIT_FOR_COND_VAR ∧
    (condVarWait id id sampleK8 3).1 = true := by
  obtain ⟨h1, h2, h3, _, h5⟩ :=
    condVarWait_spec sampleK8 id id 3 rfl rfl rfl rfl rfl (by decide)
  exact ⟨h1.1, h2, h3.2.1, h5.mpr (by decide)⟩

theorem map_range_getD (l : List Nat) :
    (List.range l.length).map (fun o => l.getD o 0) = l := by
  induction l with
  | nil => rfl
  | cons a t ih =>
      rw [List.length_cons, List.range_succ_eq_map, List.map_cons, List.map_map]
      simp only [Function.comp_def, Nat.succ_eq_add_one, List.getD_cons_succ,
        List.getD_cons_zero]
      rw [ih]

theorem memRead_length (buf : Nat → Nat) (idx n : Nat) : (memRead buf idx n).length = n := by
  simp [memRead]

theorem memRead_memWrite_self (buf : Nat → Nat) (idx : Nat) (src : List Nat) (n : Nat)
    (hlen : src.length = n) :
    memRead (memWrite buf idx src n) idx n = src := by
  subst hlen
  conv_rhs => rw [← map_range_getD src]
  unfold memRead memWrite
  apply List.map_congr_left
  intro o ho
  have holt : o < src.length := List.mem_range.mp ho
  rw [if_pos ⟨Nat.le_add_right _ _, by omega⟩]
  congr 1
  omega

theorem memRead_memWrite_other (buf : Nat → Nat) (idx wdx : Nat) (src : List Nat) (n m : Nat)
    (hdisj : idx + n ≤ wdx ∨ wdx + m ≤ idx) :
    memRead (memWrite buf wdx src m) idx n = memRead buf idx n := by
  unfold memRead memWrite
  apply List.map_congr_left
  intro o ho
  have holt : o < n := List.mem_range.mp ho
  rw [if_neg (by omega)]

theorem slot_form (q : MsgQueue) (a : Nat) (ha : q.readIndex = a * q.itemSize) (i : Nat) :
    slot q i = ((a + i) % q.queueLength) * q.itemSize := by
  unfold slot
  rw [ha, ← Nat.add_mul, Nat.mul_mod_mul_right]

/-- Two distinct item slots of a well-formed queue occupy disjoint byte
ranges of the ring buffer. -/
theorem slot_disjoint (q : MsgQueue) (hwf : MsgQWF q) (i j : Nat)
    (hi : i < q.queueLength) (hj : j < q.queueLength) (hne : i ≠ j) :
    slot q i + q.itemSize ≤ slot q j ∨ slot q j + q.itemSize ≤ slot q i := by
  obtain ⟨a, ha⟩ : ∃ a, q.readIndex = a * q.itemSize :=
    ⟨q.readIndex / q.itemSize,
      (Nat.div_mul_cancel (Nat.dvd_of_mod_eq_zero hwf.read_align)).symm⟩
  rw [slot_form q a ha i, slot_form q a ha j]
  have hbne : (a + i) % q.queueLength ≠ (a + j) % q.queueLength := by
    intro e
    apply hne
    have hme : i ≡ j [MOD q.queueLength] := Nat.ModEq.add_left_cancel' a e
    have : i % q.queueLength = j % q.queueLength := hme
    rwa [Nat.mod_eq_of_lt hi, Nat.mod_eq_of_lt hj] at this
  rcases Nat.lt_or_ge ((a + i) % q.queueLength) ((a + j) % q.queueLength) with h | h
  · left
    calc (a + i) % q.queueLength * q.itemSize + q.itemSize
        = ((a + i) % q.queueLength + 1) * q.itemSize := by ring
      _ ≤ (a + j) % q.queueLength * q.itemSize := Nat.mul_le_mul_right _ h
  · right
    have h' : (a + j) % q.queueLength < (a + i) % q.queueLength :=
      Nat.lt_of_le_of_ne h (Ne.symm hbne)
    calc (a + j) % q.queueLength * q.itemSize + q.itemSize
        = ((a + j) % q.queueLength + 1) * q.itemSize := by ring
      _ ≤ (a + i) % q.queueLength * q.itemSize := Nat.mul_le_mul_right _ h'

theorem contents_length (q : MsgQueue) : (contents q).length = q.itemCount := by
  simp [contents]

/-- Effect of the buffer-and-index part of `msgQueueBufferWrite` on the
queue abstraction: the pending items gain the new item at the back, and
well-formedness is preserved. -/
theorem contents_write (q : MsgQueue) (hwf : MsgQWF q) (item : List Nat)
    (hlen : item.length = q.itemSize) (hroom : q.itemCount < q.queueLength) :
    contents
      { q with
        buffer := memWrite q.buffer q.writeIndex item q.itemSize
        writeIndex := (q.writeIndex + q.itemSize) % (q.queueLength * q.itemSize)
        itemCount := q.itemCount + 1 } = contents q ++ [item] ∧
    MsgQWF
      { q with
        buffer := memWrite q.buffer q.writeIndex item q.itemSize
        writeIndex := (q.writeIndex + q.itemSize) % (q.queueLength * q.itemSize)
        itemCount := q.itemCount + 1 } := by
  have hs := hwf.size_pos
  have hL := hwf.len_pos
  have hw := hwf.write_eq
  have hslot : ∀ i, slot
      { q with
        buffer := memWrite q.buffer q.writeIndex item q.itemSize
        writeIndex := (q.writeIndex + q.itemSize) % (q.queueLength * q.itemSize)
        itemCount := q.itemCount + 1 } i = slot q i := fun _ => rfl
  have hwslot : q.writeIndex = slot q q.itemCount := hw
  constructor
  · unfold contents
    simp only [hslot, List.range_succ, List.map_append, List.map_cons, List.map_nil]
    congr 1
    · apply List.map_congr_left
      intro i hiR
      have hi : i < q.itemCount := List.mem_range.mp hiR
      apply memRead_memWrite_other
      rw [hwslot]
      exact slot_disjoint q hwf i q.itemCount (lt_trans hi hroom) hroom (Nat.ne_of_lt hi)
    · rw [hwslot]
      rw [memRead_memWrite_self _ _ _ _ hlen]
  · refine ⟨hs, hL, ?_, hwf.read_lt, hwf.read_align, ?_⟩
    · show q.itemCount + 1 ≤ q.queueLength
      omega
    show (q.writeIndex + q.itemSize) % (q.queueLength * q.itemSize)
        = (q.readIndex + (q.itemCount + 1) * q.itemSize) % (q.queueLength * q.itemSize)
    rw [hw, Nat.mod_add_mod]
    congr 1
    ring

/-- Effect of the buffer-and-index part of `msgQueueBufferRead` on the
queue abstraction: the oldest pending item is removed from the front, and
well-formedness is preserved. -/
theorem contents_read (q : MsgQueue) (hwf : MsgQWF q) (hne : 0 < q.itemCount) :
    contents q = memRead q.buffer q.readIndex q.itemSize ::
      contents
        { q with
          readIndex := (q.readIndex + q.itemSize) % (q.queueLength * q.itemSize)
          itemCount := q.itemCount - 1 } ∧
    MsgQWF
      { q with
        readIndex := (q.readIndex + q.itemSize) % (q.queueLength * q.itemSize)
        itemCount := q.itemCount - 1 } := by
  have hs := hwf.size_pos
  have hL := hwf.len_pos
  obtain ⟨a, ha⟩ : ∃ a, q.readIndex = a * q.itemSize :=
    ⟨q.readIndex / q.itemSize,
      (Nat.div_mul_cancel (Nat.dvd_of_mod_eq_zero hwf.read_align)).symm⟩
  have hcap : 0 < q.queueLength * q.itemSize := Nat.mul_pos hL hs
  have hslot0 : slot q 0 = q.readIndex := by
    unfold slot
    rw [Nat.zero_mul, Nat.add_zero, Nat.mod_eq_of_lt hwf.read_lt]
  have hslotS : ∀ (ic : Nat) (i : Nat), slot
      { q with
        readIndex := (q.readIndex + q.itemSize) % (q.queueLength * q.itemSize)
        itemCount := ic } i = slot q (i + 1) := by
    intro ic i
    unfold slot
    simp only
    rw [Nat.mod_add_mod]
    congr 1
    ring
  constructor
  · unfold contents
    obtain ⟨c, hc⟩ : ∃ c, q.itemCount = c + 1 := ⟨q.itemCount - 1, by omega⟩
    simp only [hc, Nat.add_sub_cancel, List.range_succ_eq_map, List.map_cons, List.map_map]
    rw [hslot0]
    congr 1
    apply List.map_congr_left
    intro i _
    simp only [Function.comp_def, Nat.succ_eq_add_one]
    rw [hslotS]
  · refine ⟨hs, hL, ?_, Nat.mod_lt _ hcap, ?_, ?_⟩
    · show q.itemCount - 1 ≤ q.queueLength
      have := hwf.count_le
      omega
    · rw [ha, ← Nat.succ_mul, Nat.mul_mod_mul_right]
      exact Nat.mul_mod_left _ _
    · show q.writeIndex = ((q.readIndex + q.itemSize) % (q.queueLength * q.itemSize)
          + (q.itemCount - 1) * q.itemSize) % (q.queueLength * q.itemSize)
      rw [hwf.write_eq, Nat.mod_add_mod]
      congr 1
      obtain ⟨c, hc⟩ : ∃ c, q.itemCount = c + 1 := ⟨q.itemCount - 1, by omega⟩
      rw [hc]
      simp only [Nat.add_sub_cancel]
      ring

theorem msgQueueFull_false_iff (q : MsgQueue) :
    msgQueueFull q = false ↔ q.itemCount ≠ q.queueLength := by
  simp [msgQueueFull]

theorem msgQueueEmpty_false_iff (q : MsgQueue) :
    msgQueueEmpty q = false ↔ q.itemCount ≠ 0 := by
  simp [msgQueueEmpty]

/-- With no waiting consumer, `msgQueueBufferWrite` is the pure
buffer-and-index update. -/
theorem msgQueueBufferWrite_no_consumer (k : Kernel) (item : List Nat)
    (hcw : k.msgq.consumerWaitQueue = []) :
    msgQueueBufferWrite k item =
      { k with msgq :=
          { k.msgq with
            buffer := memWrite k.msgq.buffer k.msgq.writeIndex item k.msgq.itemSize
            writeIndex :=
              (k.msgq.writeIndex + k.msgq.itemSize) % (k.msgq.queueLength * k.msgq.itemSize)
            itemCount := k.msgq.itemCount + 1 } } := by
  unfold msgQueueBufferWrite
  simp only [hcw]

/-- With no waiting producer, `msgQueueBufferRead` is the pure
buffer-and-index update, returning the item at `readIndex`. -/
theorem msgQueueBufferRead_no_producer (k : Kernel)
    (hpw : k.msgq.producerWaitQueue = []) :
    msgQueueBufferRead k =
      (memRead k.msgq.buffer k.msgq.readIndex k.msgq.itemSize,
       { k with msgq :=
          { k.msgq with
            readIndex :=
              (k.msgq.readIndex + k.msgq.itemSize) % (k.msgq.queueLength * k.msgq.itemSize)
            itemCount := k.msgq.itemCount - 1 } }) := by
  unfold msgQueueBufferRead
  simp only [hpw]

/-- On a non-full queue `msgQueueSend` takes the immediate-write path. -/
theorem msgQueueSend_notfull (env : Kernel → Kernel) (k : Kernel) (item : List Nat)
    (ticks : Nat) (hnf : msgQueueFull k.msgq = false) :
    msgQueueSend env k item ticks = (RET_SUCCESS, msgQueueBufferWrite k item) := by
  unfold msgQueueSend
  rw [if_pos hnf]

/-- On a non-empty queue `msgQueueReceive` takes the immediate-read path. -/
theorem msgQueueReceive_notempty (env : Kernel → Kernel) (k : Kernel) (ticks : Nat)
    (hne : msgQueueEmpty k.msgq = false) :
    msgQueueReceive env k ticks =
      (RET_SUCCESS, (msgQueueBufferRead k).1, (msgQueueBufferRead k).2) := by
  unfold msgQueueReceive
  rw [if_pos hne]

/-- One non-blocking send into a non-full well-formed queue with empty wait
queues: returns `RET_SUCCESS`, appends the item to the pending contents,
increments `itemCount`, and advances `writeIndex` by `itemSize` modulo
`queueLength * itemSize`. -/
theorem sendOne_step (k : Kernel) (item : List Nat)
    (hinv : MsgQKInv k) (hroom : k.msgq.itemCount < k.msgq.queueLength)
    (hlen : item.length = k.msgq.itemSize) :
    (msgQueueSend id k item TASK_NO_WAIT).1 = RET_SUCCESS ∧
    MsgQKInv (msgQueueSend id k item TASK_NO_WAIT).2 ∧
    contents (msgQueueSend id k item TASK_NO_WAIT).2.msgq = contents k.msgq ++ [item] ∧
    (msgQueueSend id k item TASK_NO_WAIT).2.msgq.itemCount = k.msgq.itemCount + 1 ∧
    (msgQueueSend id k item TASK_NO_WAIT).2.msgq.readIndex = k.msgq.readIndex ∧
    (msgQueueSend id k item TASK_NO_WAIT).2.msgq.itemSize = k.msgq.itemSize ∧
    (msgQueueSend id k item TASK_NO_WAIT).2.msgq.queueLength = k.msgq.queueLength ∧
    (msgQueueSend id k item TASK_NO_WAIT).2.msgq.writeIndex =
      (k.msgq.writeIndex + k.msgq.itemSize) % (k.msgq.queueLength * k.msgq.itemSize) := by
  obtain ⟨hwf, hpw, hcw⟩ := hinv
  have hnf : msgQueueFull k.msgq = false :=
    (msgQueueFull_false_iff _).mpr (Nat.ne_of_lt hroom)
  rw [msgQueueSend_notfull id k item TASK_NO_WAIT hnf,
    msgQueueBufferWrite_no_consumer k item hcw]
  obtain ⟨hcont, hwf1⟩ := contents_write k.msgq hwf item hlen hroom
  exact ⟨rfl, ⟨hwf1, hpw, hcw⟩, hcont, rfl, rfl, rfl, rfl, rfl⟩

/-- One non-blocking receive from a non-empty well-formed queue with empty
wait queues: returns `RET_SUCCESS` and the oldest pending item, decrements
`itemCount`, and advances `readIndex` by `itemSize` modulo
`queueLength * itemSize`. -/
theorem recvOne_step (k : Kernel)
    (hinv : MsgQKInv k) (hne : 0 < k.msgq.itemCount) :
    (msgQueueReceive id k TASK_NO_WAIT).1 = RET_SUCCESS ∧
    (msgQueueReceive id k TASK_NO_WAIT).2.1 =
      memRead k.msgq.buffer k.msgq.readIndex k.msgq.itemSize ∧
    MsgQKInv (msgQueueReceive id k TASK_NO_WAIT).2.2 ∧
    contents k.msgq = (msgQueueReceive id k TASK_NO_WAIT).2.1 ::
      contents (msgQueueReceive id k TASK_NO_WAIT).2.2.msgq ∧
    (msgQueueReceive id k TASK_NO_WAIT).2.2.msgq.itemCount = k.msgq.itemCount - 1 ∧
    (msgQueueReceive id k TASK_NO_WAIT).2.2.msgq.writeIndex = k.msgq.writeIndex ∧
    (msgQueueReceive id k TASK_NO_WAIT).2.2.msgq.itemSize = k.msgq.itemSize ∧
    (msgQueueReceive id k TASK_NO_WAIT).2.2.msgq.queueLength = k.msgq.queueLength ∧
    (msgQueueReceive id k TASK_NO_WAIT).2.2.msgq.readIndex =
      (k.msgq.readIndex + k.msgq.itemSize) % (k.msgq.queueLength * k.msgq.itemSize) := by
  obtain ⟨hwf, hpw, hcw⟩ := hinv
  have hnz : msgQueueEmpty k.msgq = false :=
    (msgQueueEmpty_false_iff _).mpr (Nat.pos_iff_ne_zero.mp hne)
  rw [msgQueueReceive_notempty id k TASK_NO_WAIT hnz,
    msgQueueBufferRead_no_producer k hpw]
  obtain ⟨hcont, hwf1⟩ := contents_read k.msgq hwf hne
  exact ⟨rfl, rfl, ⟨hwf1, hpw, hcw⟩, hcont, rfl, rfl, rfl, rfl, rfl⟩

theorem sendAll_cons (k : Kernel) (x : List Nat) (rest : List (List Nat)) :
    sendAll k (x :: rest) =
      ((msgQueueSend id k x TASK_NO_WAIT).1 ::
         (sendAll (msgQueueSend id k x TASK_NO_WAIT).2 rest).1,
       (sendAll (msgQueueSend id k x TASK_NO_WAIT).2 rest).2) := by
  conv_lhs => rw [sendAll]

theorem recvN_succ (k : Kernel) (n : Nat) :
    recvN k (n + 1) =
      ((msgQueueReceive id k TASK_NO_WAIT).2.1 ::
         (recvN (msgQueueReceive id k TASK_NO_WAIT).2.2 n).1,
       (msgQueueReceive id k TASK_NO_WAIT).1 ::
         (recvN (msgQueueReceive id k TASK_NO_WAIT).2.2 n).2.1,
       (recvN (msgQueueReceive id k TASK_NO_WAIT).2.2 n).2.2) := by
  conv_lhs => rw [recvN]

/-- Iterated non-blocking sends into a well-formed queue with enough room
and empty wait queues: every send returns `RET_SUCCESS`, the items are
appended in order to the pending contents, `itemCount` grows by the number
of items, and `writeIndex` advances by `itemSize` per item modulo
`queueLength * itemSize`. -/
theorem sendAll_inv (items : List (List Nat)) : ∀ (k : Kernel),
    MsgQKInv k →
    k.msgq.itemCount + items.length ≤ k.msgq.queueLength →
    (∀ x ∈ items, x.length = k.msgq.itemSize) →
    (∀ rc ∈ (sendAll k items).1, rc = RET_SUCCESS) ∧
    MsgQKInv (sendAll k items).2 ∧
    contents (sendAll k items).2.msgq = contents k.msgq ++ items ∧
    (sendAll k items).2.msgq.itemCount = k.msgq.itemCount + items.length ∧
    (sendAll k items).2.msgq.readIndex = k.msgq.readIndex ∧
    (sendAll k items).2.msgq.itemSize = k.msgq.itemSize ∧
    (sendAll k items).2.msgq.queueLength = k.msgq.queueLength ∧
    (sendAll k items).2.msgq.writeIndex =
      (k.msgq.writeIndex + items.length * k.msgq.itemSize) %
        (k.msgq.queueLength * k.msgq.itemSize) := by
  induction items with
  | nil =>
      intro k hinv hcap hlen
      have hwf := hinv.1
      have hcap0 : 0 < k.msgq.queueLength * k.msgq.itemSize :=
        Nat.mul_pos hwf.len_pos hwf.size_pos
      have hwlt : k.msgq.writeIndex < k.msgq.queueLength * k.msgq.itemSize := by
        rw [hwf.write_eq]
        exact Nat.mod_lt _ hcap0
      refine ⟨?_, hinv, ?_, rfl, rfl, rfl, rfl, ?_⟩
      · intro rc hrc
        simp [sendAll] at hrc
      · simp [sendAll]
      · show k.msgq.writeIndex = (k.msgq.writeIndex + 0 * k.msgq.itemSize) %
          (k.msgq.queueLength * k.msgq.itemSize)
        rw [Nat.zero_mul, Nat.add_zero, Nat.mod_eq_of_lt hwlt]
  | cons x rest ih =>
      intro k hinv hcap hlen
      simp only [List.length_cons] at hcap
      have hroom : k.msgq.itemCount < k.msgq.queueLength := by omega
      obtain ⟨hrc, hinv1, hcont, hcount, hread, hsize, hqlen, hwrite⟩ :=
        sendOne_step k x hinv hroom (hlen x (List.mem_cons_self x rest))
      obtain ⟨ihrc, ihinv, ihcont, ihcount, ihread, ihsize, ihqlen, ihwrite⟩ :=
        ih (msgQueueSend id k x TASK_NO_WAIT).2 hinv1
          (by rw [hcount, hqlen]; omega)
          (fun y hy => by rw [hsize]; exact hlen y (List.mem_cons_of_mem x hy))
      rw [sendAll_cons]
      simp only
      refine ⟨?_, ihinv, ?_, ?_, ?_, ?_, ?_, ?_⟩
      · intro rc hrcm
        rcases List.mem_cons.mp hrcm with h | h
        · rw [h, hrc]
        · exact ihrc rc h
      · rw [ihcont, hcont, List.append_assoc]
        rfl
      · rw [ihcount, hcount, List.length_cons]
        omega
      · rw [ihread, hread]
      · rw [ihsize, hsize]
      · rw [ihqlen, hqlen]
      · rw [ihwrite, hwrite, hsize, hqlen, Nat.mod_add_mod]
        congr 1
        rw [List.length_cons]
        ring

/-- Iterated non-blocking receives from a well-formed queue holding at least
`n` items, with empty wait queues: the receives return `RET_SUCCESS` and
yield the `n` oldest pending items in order, `itemCount` shrinks by `n`, and
`readIndex` advances by `itemSize` per item modulo
`queueLength * itemSize`. -/
theorem recvN_inv (n : Nat) : ∀ (k : Kernel),
    MsgQKInv k →
    n ≤ k.msgq.itemCount →
    (recvN k n).1 = (contents k.msgq).take n ∧
    (∀ rc ∈ (recvN k n).2.1, rc = RET_SUCCESS) ∧
    MsgQKInv (recvN k n).2.2 ∧
    contents (recvN k n).2.2.msgq = (contents k.msgq).drop n ∧
    (recvN k n).2.2.msgq.itemCount = k.msgq.itemCount - n ∧
    (recvN k n).2.2.msgq.writeIndex = k.msgq.writeIndex ∧
    (recvN k n).2.2.msgq.itemSize = k.msgq.itemSize ∧
    (recvN k n).2.2.msgq.queueLength = k.msgq.queueLength ∧
    (recvN k n).2.2.msgq.readIndex =
      (k.msgq.readIndex + n * k.msgq.itemSize) %
        (k.msgq.queueLength * k.msgq.itemSize) := by
  induction n with
  | zero =>
      intro k hinv hn
      have hwf := hinv.1
      have hcap0 : 0 < k.msgq.queueLength * k.msgq.itemSize :=
        Nat.mul_pos hwf.len_pos hwf.size_pos
      refine ⟨?_, ?_, hinv, ?_, rfl, rfl, rfl, rfl, ?_⟩
      · simp [recvN]
      · intro rc hrc
        simp [recvN] at hrc
      · simp [recvN]
      · show k.msgq.readIndex = (k.msgq.readIndex + 0 * k.msgq.itemSize) %
          (k.msgq.queueLength * k.msgq.itemSize)
        rw [Nat.zero_mul, Nat.add_zero, Nat.mod_eq_of_lt hwf.read_lt]
  | succ m ih =>
      intro k hinv hn
      have hne : 0 < k.msgq.itemCount := by omega
      obtain ⟨hrc, hitem, hinv1, hcont, hcount, hwrite, hsize, hqlen, hread⟩ :=
        recvOne_step k hinv hne
      obtain ⟨ihtake, ihrc, ihinv, ihdrop, ihcount, ihwrite, ihsize, ihqlen, ihread⟩ :=
        ih (msgQueueReceive id k TASK_NO_WAIT).2.2 hinv1 (by rw [hcount]; omega)
      rw [recvN_succ]
      simp only
      refine ⟨?_, ?_, ihinv, ?_, ?_, ?_, ?_, ?_, ?_⟩
      · rw [ihtake, hcont, List.take_succ_cons]
      · intro rc hrcm
        rcases List.mem_cons.mp hrcm with h | h
        · rw [h, hrc]
        · exact ihrc rc h
      · rw [ihdrop, hcont, List.drop_succ_cons]
      · rw [ihcount, hcount]
        omega
      · rw [ihwrite, hwrite]
      · rw [ihsize, hsize]
      · rw [ihqlen, hqlen]
      · rw [ihread, hread, hsize, hqlen, Nat.mod_add_mod]
        congr 1
        ring

/-- C7: byte-exact FIFO round-trip through the message queue.  Sending a
sequence of items (each of `itemSize` bytes, at most `queueLength` many)
into an initially empty well-formed queue succeeds for every item, with
`itemCount` incremented and `writeIndex` advanced by `itemSize` modulo
`queueLength * itemSize` per send; the same number of receives then succeeds
for every item and yields exactly the sent items in order, with `itemCount`
decremented and `readIndex` advanced by `itemSize` modulo
`queueLength * itemSize` per receive, ending with `readIndex` equal to
`writeIndex`. -/
theorem msgQueue_roundtrip (k : Kernel) (items : List (List Nat))
    (hwf : MsgQWF k.msgq)
    (hempty : k.msgq.itemCount = 0)
    (hpw : k.msgq.producerWaitQueue = [])
    (hcw : k.msgq.consumerWaitQueue = [])
    (hn : items.length ≤ k.msgq.queueLength)
    (hlen : ∀ x ∈ items, x.length = k.msgq.itemSize) :
    (∀ rc ∈ (sendAll k items).1, rc = RET_SUCCESS) ∧
    (∀ i, i ≤ items.length →
      (sendAll k (items.take i)).2.msgq.itemCount = i ∧
      (sendAll k (items.take i)).2.msgq.writeIndex =
        (k.msgq.writeIndex + i * k.msgq.itemSize) %
          (k.msgq.queueLength * k.msgq.itemSize)) ∧
    (recvN (sendAll k items).2 items.length).1 = items ∧
    (∀ rc ∈ (recvN (sendAll k items).2 items.length).2.1, rc = RET_SUCCESS) ∧
    (∀ i, i ≤ items.length →
      (recvN (sendAll k items).2 i).2.2.msgq.itemCount = items.length - i ∧
      (recvN (sendAll k items).2 i).2.2.msgq.readIndex =
        (k.msgq.readIndex + i * k.msgq.itemSize) %
          (k.msgq.queueLength * k.msgq.itemSize)) ∧
    (recvN (sendAll k items).2 items.length).2.2.msgq.readIndex =
      (recvN (sendAll k items).2 items.length).2.2.msgq.writeIndex := by
  have hinv : MsgQKInv k := ⟨hwf, hpw, hcw⟩
  have hc0 : contents k.msgq = [] := by
    unfold contents
    rw [hempty]
    rfl
  have hwr : k.msgq.writeIndex = k.msgq.readIndex := by
    rw [hwf.write_eq, hempty, Nat.zero_mul, Nat.add_zero,
      Nat.mod_eq_of_lt hwf.read_lt]
  obtain ⟨src, sinv, scont, scount, sread, ssize, sqlen, swrite⟩ :=
    sendAll_inv items k hinv (by omega) hlen
  have scont' : contents (sendAll k items).2.msgq = items := by
    rw [scont, hc0, List.nil_append]
  have scount' : (sendAll k items).2.msgq.itemCount = items.length := by
    rw [scount, hempty, Nat.zero_add]
  obtain ⟨rtake, rrc, rinv, rdrop, rcount, rwrite, rsize, rqlen, rread⟩ :=
    recvN_inv items.length (sendAll k items).2 sinv (by rw [scount'])
  refine ⟨src, ?_, ?_, rrc, ?_, ?_⟩
  · intro i hi
    have hti : (items.take i).length = i := by
      rw [List.length_take]
      omega
    obtain ⟨_, _, _, tcount, _, _, _, twrite⟩ :=
      sendAll_inv (items.take i) k hinv (by rw [hti]; omega)
        (fun y hy => hlen y (List.take_subset i items hy))
    constructor
    · rw [tcount, hti, hempty, Nat.zero_add]
    · rw [twrite, hti]
  · rw [rtake, scont', List.take_length]
  · intro i hi
    obtain ⟨_, _, _, _, icount, _, _, _, iread⟩ :=
      recvN_inv i (sendAll k items).2 sinv (by rw [scount']; omega)
    constructor
    · rw [icount, scount']
    · rw [iread, sread, ssize, sqlen]
  · rw [rread, rwrite, swrite, sread, ssize, sqlen, hwr]

/-- Witness for C7 at a concrete queue (`itemSize` 2, `queueLength` 3,
initially empty) and three two-byte items: the three receives following the
three sends return exactly the sent items in order. -/
theorem msgQueue_roundtrip_witness :
    (recvN (sendAll sampleK1 [[1, 2], [3, 4], [5, 6]]).2 3).1 =
      [[1, 2], [3, 4], [5, 6]] := by
  have h := msgQueue_roundtrip sampleK1 [[1, 2], [3, 4], [5, 6]]
    ⟨by decide, by decide, by decide, by decide, by decide, by decide⟩
    rfl rfl rfl (by decide) (by decide)
  exact h.2.2.1
